import Mathlib

/-!
Verification of the `sm-ability` permission library (`src/index.js`).

The development shallowly embeds the JavaScript source: JSON values become an

inductive `Json` type, JavaScript objects with optional fields become
structures with `Option` fields, fallible code returns `Except Err`, and the
in-place mutation performed by `decorate` (the `p.conditions = ...`
assignment on shared role configuration) is modelled by explicit state
passing: every decoration function returns the post-call state of the data it
may have written to, alongside its result.
-/

set_option maxRecDepth 4096

/-- JSON-serializable values, used for permission `conditions` templates and
for the `variables` record passed to `resolveVariables`.  Numbers are
modelled as integers; the claims under study only exercise strings and
structure. -/
inductive Json : Type where
  | null
  | bool (b : Bool)
  | num (n : Int)
  | str (s : String)
  | arr (elems : List Json)
  | obj (fields : List (String × Json))

/-- The fatal failures the library can raise: the `Variable ... is not
defined` throw in `resolveVariables`, the `No scope defined for ...` throw in
`decorate`, the `unsupported subject ...` throw in the entity predicates, and
a JavaScript `TypeError` (reading `.id` of `undefined`, or calling `.slice`
on a plain object). -/
inductive Err : Type where
  | undefinedVariable (name : String)
  | unknownScope (name : String)
  | unsupportedSubject (subjectType : String)
  | typeError
deriving DecidableEq

/-- An organizational entity: `{ id, name, entities }` where `entities` is
the list of child entities (a tree). -/
inductive Entity : Type where
  | mk (id name : String) (entities : List Entity)

def Entity.id : Entity → String
  | .mk i _ _ => i

def Entity.name : Entity → String
  | .mk _ n _ => n

def Entity.entities : Entity → List Entity
  | .mk _ _ es => es

mutual

/-- Boolean equality on entities (needed because `deriving DecidableEq` does
not handle the nested `List Entity` occurrence). -/
def entityBeq : Entity → Entity → Bool
  | .mk i n es, .mk i' n' es' => i = i' && n = n' && entityListBeq es es'

def entityListBeq : List Entity → List Entity → Bool
  | [], [] => true
  | e :: es, e' :: es' => entityBeq e e' && entityListBeq es es'
  | _, _ => false

end

mutual

theorem entityBeq_iff : ∀ (a b : Entity), entityBeq a b = true ↔ a = b
  | .mk i n es, .mk i' n' es' => by
    simp only [entityBeq, Bool.and_eq_true, decide_eq_true_eq, Entity.mk.injEq]
    rw [entityListBeq_iff es es']
    tauto

theorem entityListBeq_iff : ∀ (a b : List Entity), entityListBeq a b = true ↔ a = b
  | [], [] => by simp [entityListBeq]
  | [], _ :: _ => by simp [entityListBeq]
  | _ :: _, [] => by simp [entityListBeq]
  | e :: es, e' :: es' => by
    simp only [entityListBeq, Bool.and_eq_true, List.cons.injEq]
    rw [entityBeq_iff e e', entityListBeq_iff es es']

end

instance : DecidableEq Entity := fun a b =>
  decidable_of_iff (entityBeq a b = true) (entityBeq_iff a b)

mutual

/-- Boolean equality on JSON values (nested inductive, manual instance). -/
def jsonBeq : Json → Json → Bool
  | .null, .null => true
  | .bool b, .bool b' => b = b'
  | .num n, .num n' => n = n'
  | .str s, .str s' => s = s'
  | .arr l, .arr l' => jsonListBeq l l'
  | .obj f, .obj f' => jsonFieldsBeq f f'
  | _, _ => false

def jsonListBeq : List Json → List Json → Bool
  | [], [] => true
  | v :: vs, v' :: vs' => jsonBeq v v' && jsonListBeq vs vs'
  | _, _ => false

def jsonFieldsBeq : List (String × Json) → List (String × Json) → Bool
  | [], [] => true
  | (k, v) :: fs, (k', v') :: fs' => k = k' && jsonBeq v v' && jsonFieldsBeq fs fs'
  | _, _ => false

end

mutual

theorem jsonBeq_iff : ∀ (a b : Json), jsonBeq a b = true ↔ a = b
  | .null, b => by cases b <;> simp [jsonBeq]
  | .bool x, b => by cases b <;> simp [jsonBeq]
  | .num x, b => by cases b <;> simp [jsonBeq]
  | .str x, b => by cases b <;> simp [jsonBeq]
  | .arr l, b => by
    cases b
    case arr l' =>
      simp only [jsonBeq, Json.arr.injEq]
      exact jsonListBeq_iff l l'
    all_goals simp [jsonBeq]
  | .obj f, b => by
    cases b
    case obj f' =>
      simp only [jsonBeq, Json.obj.injEq]
      exact jsonFieldsBeq_iff f f'
    all_goals simp [jsonBeq]

theorem jsonListBeq_iff : ∀ (a b : List Json), jsonListBeq a b = true ↔ a = b
  | [], [] => by simp [jsonListBeq]
  | [], _ :: _ => by simp [jsonListBeq]
  | _ :: _, [] => by simp [jsonListBeq]
  | v :: vs, v' :: vs' => by
    simp only [jsonListBeq, Bool.and_eq_true, List.cons.injEq]
    rw [jsonBeq_iff v v', jsonListBeq_iff vs vs']

theorem jsonFieldsBeq_iff : ∀ (a b : List (String × Json)), jsonFieldsBeq a b = true ↔ a = b
  | [], [] => by simp [jsonFieldsBeq]
  | [], _ :: _ => by simp [jsonFieldsBeq]
  | _ :: _, [] => by simp [jsonFieldsBeq]
  | (k, v) :: fs, (k', v') :: fs' => by
    simp only [jsonFieldsBeq, Bool.and_eq_true, List.cons.injEq, Prod.mk.injEq,
      decide_eq_true_eq]
    rw [jsonBeq_iff v v', jsonFieldsBeq_iff fs fs']

end

instance : DecidableEq Json := fun a b =>
  decidable_of_iff (jsonBeq a b = true) (jsonBeq_iff a b)

/-- A JavaScript value that is either a single string or an array of strings
(the shapes taken by a permission declaration's `actions` and `scope`
fields; `Array.isArray` distinguishes the two). -/
inductive StrOrList : Type where
  | one (s : String)
  | many (l : List String)
deriving DecidableEq

/-- A permission declaration inside a role:
`{ actions, subject, scope?, conditions? }`. -/
structure PermissionDecl : Type where
  actions : StrOrList
  subject : String
  scope : Option StrOrList
  conditions : Option Json
deriving DecidableEq

/-- A role: `{ name, permissions }`; shared configuration data. -/
structure Role : Type where
  name : String
  permissions : List PermissionDecl
deriving DecidableEq

/-- The scope closure(s) substituted for a permission's scope name(s) by
`decorate`.  A closure `(o, rule) => SCOPE_FUNCTIONS[fcnName](user, o, rule)`
is determined by the scope name together with the captured user's `id` and
`entity` (the only user fields the scope functions read), so it is modelled
by that data. -/
inductive BoundScope : Type where
  | single (name : String) (userId : String) (userEntity : Entity)
  | multi (names : List String) (userId : String) (userEntity : Entity)
deriving DecidableEq

/-- One entry of the permission list handed to the casl `Ability`
constructor: either a declaration passed through unchanged (falsy `scope`),
or a copy `{...p, scope: closure(s)}` with the scope replaced by bound
closures. -/
inductive RPerm : Type where
  | plain (p : PermissionDecl)
  | scoped (p : PermissionDecl) (scope : BoundScope)
deriving DecidableEq

/-- The decision object built by `new Ability(permissions)`: the external
rule engine is a deterministic function of its resolved permission list, so
the decision object is modelled by that list. -/
abbrev Ability : Type := List RPerm

/-- A user: `{ id, entity, roles }`, plus the `ability` field added by
`decorateUser` (absent before decoration). -/
structure User : Type where
  id : String
  entity : Entity
  roles : List Role
  ability : Option Ability
deriving DecidableEq

/-- A subject being checked: a duck-typed record; every field the predicates
read is optional.  `entityId` / `caregiverId` are the prospective (create)
fields, `entityIds` / `caregiverIds` / `entity` / `id` the persisted ones. -/
structure Subject : Type where
  id : Option String
  entityId : Option String
  entityIds : Option (List String)
  entity : Option Entity
  caregiverId : Option String
  caregiverIds : Option (List String)
deriving DecidableEq

/-- A subject record with every field absent. -/
def Subject.empty : Subject :=
  { id := none, entityId := none, entityIds := none, entity := none,
    caregiverId := none, caregiverIds := none }

/-- The rule context passed to a scope function; the predicates read only
`rule.subject`, the subject type name. -/
structure Rule : Type where
  subject : String
deriving DecidableEq

/-- JavaScript strict equality `a === b` where `b` may be `undefined`
(comparing a string to `undefined` is `false`). -/
def jsStrictEqOpt (s : String) : Option String → Bool
  | some t => s == t
  | none => false

/-- lodash `_indexOf(array, value) === -1 ? false : true` where `array` may
be `undefined` (lodash returns `-1` on a nullish array). -/
def jsIndexOfFound : Option (List String) → String → Bool
  | some l, x => l.contains x
  | none, _ => false

/-- lodash `_indexOf(array, value) === -1 ? false : true` where the searched
`value` may be `undefined` (never found among strings). -/
def jsIndexOfFoundOpt (l : List String) : Option String → Bool
  | some x => l.contains x
  | none => false

/-- lodash `_intersection(a, b).length ? true : false` where `b` may be
`undefined` (lodash drops non-array arguments, yielding `[]`). -/
def jsIntersectionNonempty (l : List String) : Option (List String) → Bool
  | some l2 => !(l.inter l2).isEmpty
  | none => false

/-- The fallback `subject.entity.id` of the `"User"` branches: reading
`.id` of an absent `entity` is a fatal `TypeError`. -/
def userSubjectEntityFallback (subject : Subject) : Except Err String :=
  match subject.entity with
  | some e => .ok e.id
  | none => .error .typeError

/-- Embedding of `subject.entityId || subject.entity.id` (the `"User"` branches): falls
back on a falsy `entityId`. -/
def userSubjectEntityId (subject : Subject) : Except Err String :=
  match subject.entityId with
  | some s => if s.isEmpty then userSubjectEntityFallback subject else .ok s
  | none => userSubjectEntityFallback subject

/-- Embedding of `subject.entityId || subject.id` (the `"Entity"` branches): the result
may be `undefined` when both fields are absent. -/
def entitySubjectId (subject : Subject) : Option String :=
  match subject.entityId with
  | some s => if s.isEmpty then subject.id else some s
  | none => subject.id

/-- Embedding of `subject.entityId ? [ subject.entityId ] : subject.entityIds` (the
`"Patient"` branches). -/
def patientSubjectEntityIds (subject : Subject) : Option (List String) :=
  match subject.entityId with
  | some s => if s.isEmpty then subject.entityIds else some [s]
  | none => subject.entityIds

/-- Embedding of `IS_PRIMARY_CAREGIVER(user, patient, rule)`:
`user.id === patient.caregiverId`. -/
def IS_PRIMARY_CAREGIVER (user : User) (patient : Subject) (_rule : Rule) : Bool :=
  jsStrictEqOpt user.id patient.caregiverId

/-- Embedding of `IS_CAREGIVER(user, patient, rule)`: primary caregiver, or `user.id`
listed in `patient.caregiverIds`; an absent list yields `false`. -/
def IS_CAREGIVER (user : User) (patient : Subject) (rule : Rule) : Bool :=
  if IS_PRIMARY_CAREGIVER user patient rule then true
  else
    match patient.caregiverIds with
    | none => false
    | some caregiverIds => caregiverIds.contains user.id

/-- Embedding of `BELONGS_TO_ENTITY(user, subject, rule)`: direct entity membership,
branching on `rule.subject`; any other subject type name throws. -/
def BELONGS_TO_ENTITY (user : User) (subject : Subject) (rule : Rule) :
    Except Err Bool :=
  if rule.subject == "User" then
    (userSubjectEntityId subject).map (fun sid => user.entity.id == sid)
  else if rule.subject == "Entity" then
    .ok (jsStrictEqOpt user.entity.id (entitySubjectId subject))
  else if rule.subject == "Patient" then
    .ok (jsIndexOfFound (patientSubjectEntityIds subject) user.entity.id)
  else .error (.unsupportedSubject rule.subject)

mutual

/-- Embedding of `_getIds(entity, ids, levels, level)`: pushes `entity.id` onto the
accumulator, then recurses into the children with `level + 1` unless the
entity is childless or `level === levels`. -/
def getIds : Entity → List String → Nat → Nat → List String
  | .mk i _ es, ids, levels, level =>
    let ids' := ids ++ [i]
    if es.isEmpty then ids'
    else if level = levels then ids'
    else getIdsList es ids' levels (level + 1)

/-- The `entity.entities.forEach(e => _getIds(e, ids, levels, level+1))`
loop, threading the mutable `ids` array left to right. -/
def getIdsList : List Entity → List String → Nat → Nat → List String
  | [], ids, _, _ => ids
  | e :: es, ids, levels, level => getIdsList es (getIds e ids levels level) levels level

end

/-- Embedding of `_entityMembership(userEntityIds, subject, rule)`: hierarchical
membership of the subject's entity id (or id list) in a collected id set. -/
def entityMembership (userEntityIds : List String) (subject : Subject) (rule : Rule) :
    Except Err Bool :=
  if rule.subject == "User" then
    (userSubjectEntityId subject).map (fun sid => userEntityIds.contains sid)
  else if rule.subject == "Entity" then
    .ok (jsIndexOfFoundOpt userEntityIds (entitySubjectId subject))
  else if rule.subject == "Patient" then
    .ok (jsIntersectionNonempty userEntityIds (patientSubjectEntityIds subject))
  else .error (.unsupportedSubject rule.subject)

/-- Embedding of `BELONGS_TO_SUB_ENTITIES(user, subject, rule)`: direct membership, or
membership in the ids collected with `levels = 1`. -/
def BELONGS_TO_SUB_ENTITIES (user : User) (subject : Subject) (rule : Rule) :
    Except Err Bool :=
  match BELONGS_TO_ENTITY user subject rule with
  | .error e => .error e
  | .ok true => .ok true
  | .ok false => entityMembership (getIds user.entity [] 1 0) subject rule

/-- Embedding of `BELONGS_TO_ENTITY_TREE(user, subject, rule)`: direct membership, or
membership in the ids collected with `levels = 10000` (the literal magic
constant in the source). -/
def BELONGS_TO_ENTITY_TREE (user : User) (subject : Subject) (rule : Rule) :
    Except Err Bool :=
  match BELONGS_TO_ENTITY user subject rule with
  | .error e => .error e
  | .ok true => .ok true
  | .ok false => entityMembership (getIds user.entity [] 10000 0) subject rule

/-- The names in the `SCOPE_FUNCTIONS` catalog. -/
def SCOPE_NAMES : List String :=
  ["IS_PRIMARY_CAREGIVER", "IS_CAREGIVER", "BELONGS_TO_ENTITY",
   "BELONGS_TO_SUB_ENTITIES", "BELONGS_TO_ENTITY_TREE"]

/-- Embedding of `SCOPE_FUNCTIONS[name](user, subject, rule)`: dispatch from a scope name
to its predicate (the two caregiver predicates never throw, so their results
are wrapped in `.ok`). -/
def scopeFunction (name : String) (user : User) (subject : Subject) (rule : Rule) :
    Except Err Bool :=
  if name == "IS_PRIMARY_CAREGIVER" then .ok (IS_PRIMARY_CAREGIVER user subject rule)
  else if name == "IS_CAREGIVER" then .ok (IS_CAREGIVER user subject rule)
  else if name == "BELONGS_TO_ENTITY" then BELONGS_TO_ENTITY user subject rule
  else if name == "BELONGS_TO_SUB_ENTITIES" then BELONGS_TO_SUB_ENTITIES user subject rule
  else if name == "BELONGS_TO_ENTITY_TREE" then BELONGS_TO_ENTITY_TREE user subject rule
  else .error (.unknownScope name)

mutual

/-- Accumulator-free form of `_getIds`: the ids collected from `e` with a
remaining depth budget `b` (`b = levels - level`). -/
def collect : Entity → Nat → List String
  | .mk i _ es, b =>
    i :: (if es.isEmpty then [] else if b = 0 then [] else collectList es (b - 1))

def collectList : List Entity → Nat → List String
  | [], _ => []
  | e :: es, b => collect e b ++ collectList es b

end

mutual

/-- The ids of the full subtree rooted at `e`, with no depth bound (the
specification's notion of the entity tree). -/
def subtreeIds : Entity → List String
  | .mk i _ es => i :: subtreeIdsList es

def subtreeIdsList : List Entity → List String
  | [] => []
  | e :: es => subtreeIds e ++ subtreeIdsList es

end

mutual

/-- The depth of an entity tree: a childless entity has depth 0. -/
def edepth : Entity → Nat
  | .mk _ _ [] => 0
  | .mk _ _ (e :: es) => 1 + edepthList (e :: es)

def edepthList : List Entity → Nat
  | [] => 0
  | e :: es => max (edepth e) (edepthList es)

end

/-- Decidable equality for `Except` results (not provided by the library). -/
def exceptDecEq {e a : Type} [DecidableEq e] [DecidableEq a] :
    (x y : Except e a) → Decidable (x = y)
  | .ok x, .ok y =>
    if h : x = y then isTrue (by rw [h]) else isFalse (fun hc => h (Except.ok.inj hc))
  | .error x, .error y =>
    if h : x = y then isTrue (by rw [h]) else isFalse (fun hc => h (Except.error.inj hc))
  | .ok _, .error _ => isFalse (fun hc => Except.noConfusion hc)
  | .error _, .ok _ => isFalse (fun hc => Except.noConfusion hc)

instance {e a : Type} [DecidableEq e] [DecidableEq a] : DecidableEq (Except e a) :=
  exceptDecEq

/-- Splitting a dotted path into its components (lodash `stringToPath`
restricted to plain dotted paths, the only shape the library's templates
use): the empty string yields one empty component, as lodash does. -/
def splitDotsAux : List Char → List Char → List String
  | [], acc => [acc.reverse.asString]
  | c :: cs, acc =>
    if c = '.' then acc.reverse.asString :: splitDotsAux cs []
    else splitDotsAux cs (c :: acc)

def splitDots (s : String) : List String :=
  splitDotsAux s.data []

/-- JavaScript `value.slice(2, -1)` on a string: drop the first two and the
last characters (empty when fewer than three characters remain). -/
def jsSliceStr (s : String) : String :=
  ((s.data.drop 2).dropLast).asString

/-- lodash `toKey` (string coercion of a path component); only the string
and number coercions are ever reachable from well-formed templates. -/
def jsToKey : Json → String
  | .str s => s
  | .num n => toString n
  | .bool true => "true"
  | .bool false => "false"
  | .null => "null"
  | .arr _ => ""
  | .obj _ => "[object Object]"

/-- One step of lodash `_get`: `value[key]`, with object property access and
numeric array indexing. -/
def jsGetStep (v : Json) (k : String) : Option Json :=
  match v with
  | .obj fields => (fields.find? (fun f => f.fst == k)).map (fun f => f.snd)
  | .arr elems =>
    match k.toNat? with
    | some i => elems.get? i
    | none => none
  | _ => none

/-- lodash `_get(variables, path)` over an already-split path; an empty path
yields `undefined`. -/
def jsGet (vars : Json) (path : List String) : Option Json :=
  if path.isEmpty then none
  else
    path.foldl
      (fun acc k =>
        match acc with
        | some v => jsGetStep v k
        | none => none)
      (some vars)

/-- The reviver's guard `rawValue[0] !== '$'`, negated: `true` when index 0
of the value is the one-character string holding the dollar sign — the first
character for a string, element 0 for an array, property `"0"` for an
object. -/
def jsIndexZeroDollar : Json → Bool
  | .str s => s.data.head? == some '$'
  | .arr elems => elems.head? == some (.str "$")
  | .obj fields => ((fields.find? (fun f => f.fst == "0")).map (fun f => f.snd)) == some (.str "$")
  | _ => false

/-- The reviver body once the guard has matched: `name = rawValue.slice(2, -1)`,
`value = _get(variables, name)`, throwing when the value is `undefined`.
For a string the name is split on dots; for an array, `Array.prototype.slice`
produces an array path whose components lodash coerces with `toKey`; a plain
object has no `slice` method, so that case is a `TypeError`. -/
def reviveTemplate (vars : Json) (v : Json) : Except Err Json :=
  match v with
  | .str s =>
    let name := jsSliceStr s
    match jsGet vars (splitDots name) with
    | some value => .ok value
    | none => .error (.undefinedVariable name)
  | .arr elems =>
    let path := ((elems.drop 2).dropLast).map jsToKey
    match jsGet vars path with
    | some value => .ok value
    | none => .error (.undefinedVariable (String.intercalate "," path))
  | _ => .error .typeError

/-- The reviver function passed to `JSON.parse`. -/
def jsonReviver (vars : Json) (v : Json) : Except Err Json :=
  if jsIndexZeroDollar v then reviveTemplate vars v else .ok v

mutual

/-- The `JSON.parse(template, reviver)` traversal: children are revived
first (arrays element by element, objects field by field, in order), then
the reviver is applied to the rebuilt value; the root is revived last. -/
def reviveJson (vars : Json) : Json → Except Err Json
  | .arr elems =>
    match reviveJsonList vars elems with
    | .error e => .error e
    | .ok elems' => jsonReviver vars (.arr elems')
  | .obj fields =>
    match reviveJsonFields vars fields with
    | .error e => .error e
    | .ok fields' => jsonReviver vars (.obj fields')
  | .null => jsonReviver vars .null
  | .bool b => jsonReviver vars (.bool b)
  | .num n => jsonReviver vars (.num n)
  | .str s => jsonReviver vars (.str s)

def reviveJsonList (vars : Json) : List Json → Except Err (List Json)
  | [] => .ok []
  | v :: vs =>
    match reviveJson vars v with
    | .error e => .error e
    | .ok v' =>
      match reviveJsonList vars vs with
      | .error e => .error e
      | .ok vs' => .ok (v' :: vs')

def reviveJsonFields (vars : Json) :
    List (String × Json) → Except Err (List (String × Json))
  | [] => .ok []
  | (k, v) :: fs =>
    match reviveJson vars v with
    | .error e => .error e
    | .ok v' =>
      match reviveJsonFields vars fs with
      | .error e => .error e
      | .ok fs' => .ok ((k, v') :: fs')

end

/-- Embedding of `resolveVariables(json, variables)`:
`JSON.parse(JSON.stringify(json), reviver)` — for JSON-serializable input the
stringify/parse round trip is the identity, so the net effect is the
bottom-up reviver traversal. -/
def resolveVariables (json : Json) (vars : Json) : Except Err Json :=
  reviveJson vars json

mutual

/-- Specification-side template resolution, written from the spec's words:
a top-down structural descent replacing template strings and recursing
through arrays and objects, leaving everything else unchanged. -/
def resolveSpec (vars : Json) : Json → Except Err Json
  | .str s =>
    if s.data.head? == some '$' then
      let name := jsSliceStr s
      match jsGet vars (splitDots name) with
      | some value => .ok value
      | none => .error (.undefinedVariable name)
    else .ok (.str s)
  | .arr elems =>
    match resolveSpecList vars elems with
    | .error e => .error e
    | .ok elems' => .ok (.arr elems')
  | .obj fields =>
    match resolveSpecFields vars fields with
    | .error e => .error e
    | .ok fields' => .ok (.obj fields')
  | .null => .ok .null
  | .bool b => .ok (.bool b)
  | .num n => .ok (.num n)

def resolveSpecList (vars : Json) : List Json → Except Err (List Json)
  | [] => .ok []
  | v :: vs =>
    match resolveSpec vars v with
    | .error e => .error e
    | .ok v' =>
      match resolveSpecList vars vs with
      | .error e => .error e
      | .ok vs' => .ok (v' :: vs')

def resolveSpecFields (vars : Json) :
    List (String × Json) → Except Err (List (String × Json))
  | [] => .ok []
  | (k, v) :: fs =>
    match resolveSpec vars v with
    | .error e => .error e
    | .ok v' =>
      match resolveSpecFields vars fs with
      | .error e => .error e
      | .ok fs' => .ok ((k, v') :: fs')

end

mutual

/-- Returns `true` when the one-character dollar string does not occur as a value
anywhere inside `v` (the side condition under which a container can never be
mistaken for a template by the reviver's index-0 test). -/
def noDollar : Json → Bool
  | .str s => s ≠ "$"
  | .arr elems => noDollarList elems
  | .obj fields => noDollarFields fields
  | .null => true
  | .bool _ => true
  | .num _ => true

def noDollarList : List Json → Bool
  | [] => true
  | v :: vs => noDollar v && noDollarList vs

def noDollarFields : List (String × Json) → Bool
  | [] => true
  | (_, v) :: fs => noDollar v && noDollarFields fs

end

/-- JavaScript truthiness of a JSON value. -/
def jsTruthy : Json → Bool
  | .null => false
  | .bool b => b
  | .num n => n ≠ 0
  | .str s => !s.isEmpty
  | .arr _ => true
  | .obj _ => true

/-- JavaScript truthiness of the `conditions` field (`if (p.conditions)`);
an absent field is `undefined`, hence falsy. -/
def condTruthy : Option Json → Bool
  | none => false
  | some j => jsTruthy j

/-- Falsiness of the `scope` field (`if (!p.scope) return p`): absent or the
empty string; an array is always truthy, even when empty. -/
def scopeFalsy : Option StrOrList → Bool
  | none => true
  | some (.one s) => s.isEmpty
  | some (.many _) => false

/-- Embedding of `Array.isArray(p.scope) ? p.scope : [ p.scope ]`. -/
def scopeNames : Option StrOrList → List String
  | some (.many l) => l
  | some (.one s) => [s]
  | none => []

mutual

/-- The JSON view of an entity, as lodash `_get` sees it when a conditions
template path reaches into `user.entity`. -/
def entityToJson : Entity → Json
  | .mk i n es => .obj [("id", .str i), ("name", .str n), ("entities", .arr (entityListToJson es))]

def entityListToJson : List Entity → List Json
  | [] => []
  | e :: es => entityToJson e :: entityListToJson es

end

/-- The JSON view of an `actions`/`scope` field. -/
def strOrListToJson : StrOrList → Json
  | .one s => .str s
  | .many l => .arr (l.map Json.str)

/-- The JSON view of a permission declaration (absent fields omitted). -/
def permToJson (p : PermissionDecl) : Json :=
  .obj ([("actions", strOrListToJson p.actions), ("subject", .str p.subject)]
    ++ (match p.scope with
        | some sc => [("scope", strOrListToJson sc)]
        | none => [])
    ++ (match p.conditions with
        | some c => [("conditions", c)]
        | none => []))

/-- The JSON view of a role. -/
def roleToJson (r : Role) : Json :=
  .obj [("name", .str r.name), ("permissions", .arr (r.permissions.map permToJson))]

/-- The JSON view of a not-yet-decorated user, the target of the dotted-path
lookups performed for `{user}` (the `ability` field is absent before
decoration, matching its omission here). -/
def userToJson (u : User) : Json :=
  .obj [("id", .str u.id), ("entity", entityToJson u.entity),
    ("roles", .arr (u.roles.map roleToJson))]

/-- The `if (p.conditions) p.conditions = resolveVariables(p.conditions,
{user})` step of `decorate`: returns the permission declaration as it stands
after the assignment (this is the in-place write to shared role
configuration). -/
def resolveConditionsStep (user : User) (p : PermissionDecl) : Except Err PermissionDecl :=
  if condTruthy p.conditions then
    match p.conditions with
    | some c =>
      match resolveVariables c (.obj [("user", userToJson user)]) with
      | .error e => .error e
      | .ok c' => .ok { p with conditions := some c' }
    | none => .ok p
  else .ok p

/-- The scope-binding step of `decorate`: falsy scope passes the declaration
through; otherwise every named scope must exist in `SCOPE_FUNCTIONS` (the
first unknown name throws), and the scope is replaced by one closure or a
list of closures. -/
def bindScopeStep (user : User) (p : PermissionDecl) : Except Err RPerm :=
  if scopeFalsy p.scope then .ok (.plain p)
  else
    match (scopeNames p.scope).find? (fun n => !SCOPE_NAMES.contains n) with
    | some bad => .error (.unknownScope bad)
    | none =>
      match scopeNames p.scope with
      | [fcnName] => .ok (.scoped p (.single fcnName user.id user.entity))
      | _ => .ok (.scoped p (.multi (scopeNames p.scope) user.id user.entity))

/-- Processing of one permission declaration by `decorate`'s `map` callback:
the post-mutation declaration paired with the resolved permission entry. -/
def decoratePerm (user : User) (p : PermissionDecl) :
    Except Err (PermissionDecl × RPerm) :=
  match resolveConditionsStep user p with
  | .error e => .error e
  | .ok p' =>
    match bindScopeStep user p' with
    | .error e => .error e
    | .ok rp => .ok (p', rp)

/-- Embedding of `decorate`'s `map` over a permission-declaration list, in order. -/
def decoratePerms (user : User) :
    List PermissionDecl → Except Err (List PermissionDecl × List RPerm)
  | [] => .ok ([], [])
  | p :: ps =>
    match decoratePerm user p with
    | .error e => .error e
    | .ok (p', rp) =>
      match decoratePerms user ps with
      | .error e => .error e
      | .ok (ps', rps) => .ok (p' :: ps', rp :: rps)

/-- Role-by-role processing of the flattened permission list
(`user.roles.forEach(role => permissions.concat(role.permissions))` followed
by the `map`): returns the post-mutation roles and the resolved permission
list, in source order. -/
def decorateRoles (user : User) : List Role → Except Err (List Role × List RPerm)
  | [] => .ok ([], [])
  | r :: rs =>
    match decoratePerms user r.permissions with
    | .error e => .error e
    | .ok (ps', rps) =>
      match decorateRoles user rs with
      | .error e => .error e
      | .ok (rs', rpsRest) => .ok ({ r with permissions := ps' } :: rs', rps ++ rpsRest)

/-- Embedding of `decorate(user)`: builds the `Ability` from the flattened, resolved
permission list; also returns the post-mutation state of the user's roles
(the shared configuration `decorate` writes `conditions` into). -/
def decorate (user : User) : Except Err (Ability × List Role) :=
  match decorateRoles user user.roles with
  | .error e => .error e
  | .ok (rs', rps) => .ok (rps, rs')

/-- Embedding of `decorateUser(user)`: `user.ability = decorate(user)` — the user record
afterwards, with the mutated roles and the new `ability` field. -/
def decorateUser (user : User) : Except Err User :=
  match decorate user with
  | .error e => .error e
  | .ok (ab, rs') => .ok { user with ability := some ab, roles := rs' }

/-- Embedding of `decorateUserImmutable(user)`: deep-copies the user first, decorates the
original, and attaches the ability to the copy.  Returns the pair
(decorated copy, original user as it stands after the call): the copy keeps
the pre-call roles, while the original's shared roles carry any conditions
mutation and its `ability` field is untouched. -/
def decorateUserImmutable (user : User) : Except Err (User × User) :=
  match decorate user with
  | .error e => .error e
  | .ok (ab, rs') => .ok ({ user with ability := some ab }, { user with roles := rs' })

/-- The entity hierarchy used by the repository's tests
(`SmartMonitor -> (CVS -> (HTA1, HTA2), CVSPilot -> (SE1, SE2))`). -/
def htaOne : Entity := .mk "hta1" "HTA1" []

def htaTwo : Entity := .mk "hta2" "HTA2" []

def seOne : Entity := .mk "se1" "SE1" []

def seTwo : Entity := .mk "se2" "SE2" []

def cvs : Entity := .mk "cvs" "CVS" [htaOne, htaTwo]

def cvsPilot : Entity := .mk "cvsp" "CVS Pilot" [seOne, seTwo]

def smartMonitor : Entity := .mk "sm" "Smart Monitor" [cvs, cvsPilot]

/-- A nurse whose entity is HTA1 (fixture). -/
def nurseHtaOne : User := { id := "uid3", entity := htaOne, roles := [], ability := none }

/-- A manager whose entity is CVS (fixture). -/
def managerCvs : User := { id := "uid7", entity := cvs, roles := [], ability := none }

/-- An admin whose entity is the root SmartMonitor entity (fixture). -/
def adminSm : User := { id := "uid9", entity := smartMonitor, roles := [], ability := none }

/-- A persisted patient in HTA1 whose primary caregiver is the HTA1 nurse. -/
def patientHtaOne : Subject :=
  { Subject.empty with
    id := some "pid1"
    caregiverId := some "uid3"
    entityIds := some ["hta1"] }

/-- A persisted patient in SE1. -/
def patientSeOne : Subject :=
  { Subject.empty with
    id := some "pid3"
    caregiverId := some "uid5"
    entityIds := some ["se1"] }

def patientRule : Rule := { subject := "Patient" }

def userRule : Rule := { subject := "User" }

def entityRule : Rule := { subject := "Entity" }

/-- An entity tree in which two distinct children carry the same id. -/
def dupEntity : Entity := .mk "r" "R" [.mk "a" "A" [], .mk "a" "B" []]

/-- Specification-side predicate, written from the claim's words: the
subject's resolved entity id (or, for a list-bearing `Patient` subject,
some member of its entity-id list) belongs to the id set of the full
descendant subtree of the user's entity, at arbitrary depth with no depth
cutoff. -/
def fullTreeMember (user : User) (subject : Subject) (rule : Rule) : Bool :=
  if rule.subject == "User" then
    match userSubjectEntityId subject with
    | .ok sid => (subtreeIds user.entity).contains sid
    | .error _ => false
  else if rule.subject == "Entity" then
    jsIndexOfFoundOpt (subtreeIds user.entity) (entitySubjectId subject)
  else if rule.subject == "Patient" then
    jsIntersectionNonempty (subtreeIds user.entity) (patientSubjectEntityIds subject)
  else false

/-- A linear entity chain of the given depth: `chainEntity 0` is the single
leaf (id `leaf`), and `chainEntity (n+1)` is a node (id `node`) with the
`n`-deep chain as its only child. -/
def chainEntity : Nat → Entity
  | 0 => .mk "leaf" "leaf" []
  | n + 1 => .mk "node" "node" [chainEntity n]

/-- A user sitting on top of a chain 10001 levels deep. -/
def deepUser : User :=
  { id := "du", entity := chainEntity 10001, roles := [], ability := none }

/-- An Entity-typed subject holding the deepest chain entity. -/
def leafSubject : Subject := { Subject.empty with id := some "leaf" }

/-- A permission declaration that names a scope (its `scope` field is
truthy, so the names are enumerated) where some named scope is missing from
the `SCOPE_FUNCTIONS` catalog. -/
def permHasUnknownScope (p : PermissionDecl) : Prop :=
  scopeFalsy p.scope = false ∧ ∃ nm ∈ scopeNames p.scope, ¬ nm ∈ SCOPE_NAMES

/-- A permission declaration naming a scope missing from the catalog. -/
def badScopePerm : PermissionDecl :=
  { actions := .one "read"
    subject := "Patient"
    scope := some (.one "NOT_A_SCOPE")
    conditions := none }

/-- A role whose only permission names a scope missing from the catalog. -/
def badScopeRole : Role := { name := "broken", permissions := [badScopePerm] }

def badScopeUser : User :=
  { id := "ub", entity := htaOne, roles := [badScopeRole], ability := none }

/-- A conditions template referencing the decorated user's entity id. -/
def condTemplate : Json := .obj [("entityId", .str "$\x7buser.entity.id\x7d")]

def condPerm : PermissionDecl :=
  { actions := .one "read"
    subject := "Patient"
    scope := none
    conditions := some condTemplate }

def condRole : Role := { name := "nurse", permissions := [condPerm] }

def condUser : User :=
  { id := "u1", entity := .mk "e1" "E1" [], roles := [condRole], ability := none }

/-- Fixture: `condPerm` as it stands after decoration resolved its template in
place. -/
def resolvedCondPerm : PermissionDecl :=
  { actions := .one "read"
    subject := "Patient"
    scope := none
    conditions := some (.obj [("entityId", .str "e1")]) }

def resolvedCondRole : Role := { name := "nurse", permissions := [resolvedCondPerm] }

def plainAdminPerm : PermissionDecl :=
  { actions := .one "manage"
    subject := "User"
    scope := some (.one "BELONGS_TO_ENTITY")
    conditions := none }

def plainAdminRole : Role := { name := "entityUserAdmin", permissions := [plainAdminPerm] }

def plainAdminUser : User :=
  { id := "u2", entity := htaOne, roles := [plainAdminRole], ability := none }

/-- The decision object decoration builds for `plainAdminUser`. -/
def plainAdminAbility : Ability :=
  [.scoped plainAdminPerm (.single "BELONGS_TO_ENTITY" "u2" htaOne)]

/-- Fixture: `plainAdminUser` with its decision object attached. -/
def plainAdminDecorated : User :=
  { plainAdminUser with ability := some plainAdminAbility }

def witTemplate : Json := .obj [("eid", .str "$\x7buser.id\x7d"), ("n", .num 5)]

def witVars : Json := .obj [("user", .obj [("id", .str "u9")])]

mutual

theorem getIds_eq_collect (e : Entity) (ids : List String) (levels level : Nat)
    (h : level ≤ levels) :
    getIds e ids levels level = ids ++ collect e (levels - level) := by
  cases e with
  | mk i n es =>
    by_cases h1 : es.isEmpty
    · simp [getIds, collect, h1]
    · by_cases h2 : level = levels
      · have hb : levels - level = 0 := by omega
        simp [getIds, collect, h1, h2, hb]
      · have hlt : level < levels := lt_of_le_of_ne h h2
        have hb : levels - level ≠ 0 := by omega
        have hb1 : levels - level - 1 = levels - (level + 1) := by omega
        simp only [getIds, collect, h1, h2, hb, if_false, Bool.false_eq_true]
        rw [getIdsList_eq_collectList es (ids ++ [i]) levels (level + 1) (by omega), hb1]
        simp

theorem getIdsList_eq_collectList (es : List Entity) (ids : List String)
    (levels level : Nat) (h : level ≤ levels) :
    getIdsList es ids levels level = ids ++ collectList es (levels - level) := by
  cases es with
  | nil => simp [getIdsList, collectList]
  | cons e es' =>
    simp only [getIdsList, collectList]
    rw [getIdsList_eq_collectList es' (getIds e ids levels level) levels level h,
      getIds_eq_collect e ids levels level h, List.append_assoc]

end

mutual

theorem collect_sublist_subtreeIds (e : Entity) (b : Nat) :
    List.Sublist (collect e b) (subtreeIds e) := by
  cases e with
  | mk i n es =>
    simp only [collect, subtreeIds]
    refine List.Sublist.cons₂ i ?_
    by_cases h1 : es.isEmpty
    · simp [h1]
    · by_cases h2 : b = 0
      · simp [h1, h2]
      · simpa [h1, h2] using collectList_sublist_subtreeIdsList es (b - 1)

theorem collectList_sublist_subtreeIdsList (es : List Entity) (b : Nat) :
    List.Sublist (collectList es b) (subtreeIdsList es) := by
  cases es with
  | nil => simp [collectList, subtreeIdsList]
  | cons e es' =>
    simp only [collectList, subtreeIdsList]
    exact (collect_sublist_subtreeIds e b).append
      (collectList_sublist_subtreeIdsList es' b)

end

mutual

theorem collect_mono (e : Entity) (b b' : Nat) (h : b ≤ b') :
    List.Sublist (collect e b) (collect e b') := by
  cases e with
  | mk i n es =>
    simp only [collect]
    refine List.Sublist.cons₂ i ?_
    by_cases h1 : es.isEmpty
    · simp [h1]
    · by_cases h2 : b = 0
      · simp [h1, h2]
      · have h2' : b' ≠ 0 := by omega
        simpa [h1, h2, h2'] using collectList_mono es (b - 1) (b' - 1) (by omega)

theorem collectList_mono (es : List Entity) (b b' : Nat) (h : b ≤ b') :
    List.Sublist (collectList es b) (collectList es b') := by
  cases es with
  | nil => simp [collectList]
  | cons e es' =>
    simp only [collectList]
    exact (collect_mono e b b' h).append (collectList_mono es' b b' h)

end

mutual

theorem collect_saturates (e : Entity) (b : Nat) (h : edepth e ≤ b) :
    collect e b = subtreeIds e := by
  cases e with
  | mk i n es =>
    cases es with
    | nil => simp [collect, subtreeIds, subtreeIdsList]
    | cons e' es' =>
      have hd : edepth (.mk i n (e' :: es')) = 1 + edepthList (e' :: es') := by
        simp [edepth]
      rw [hd] at h
      have hb : b ≠ 0 := by omega
      simp only [collect, subtreeIds, List.isEmpty_cons, hb, if_false,
        Bool.false_eq_true, Bool.false_eq_true]
      rw [collectList_saturates (e' :: es') (b - 1) (by omega)]

theorem collectList_saturates (es : List Entity) (b : Nat) (h : edepthList es ≤ b) :
    collectList es b = subtreeIdsList es := by
  cases es with
  | nil => simp [collectList, subtreeIdsList]
  | cons e es' =>
    have h1 : edepth e ≤ b := le_trans (le_max_left _ _) (by simpa [edepthList] using h)
    have h2 : edepthList es' ≤ b := le_trans (le_max_right _ _) (by simpa [edepthList] using h)
    simp only [collectList, subtreeIdsList]
    rw [collect_saturates e b h1, collectList_saturates es' b h2]

end

/-- Fact: `collect` with budget 0 yields exactly the root id. -/
theorem collect_zero (e : Entity) : collect e 0 = [e.id] := by
  cases e with
  | mk i n es => cases es <;> simp [collect, Entity.id]

/-- Fact: `collectList` with budget 0 yields the roots' ids. -/
theorem collectList_zero (es : List Entity) : collectList es 0 = es.map Entity.id := by
  induction es with
  | nil => simp [collectList]
  | cons e es' ih => simp [collectList, collect_zero, ih]

/-- Fact: `collect` with budget 1 yields the root id followed by the ids of the
immediate children. -/
theorem collect_one (e : Entity) :
    collect e 1 = e.id :: e.entities.map Entity.id := by
  cases e with
  | mk i n es =>
    cases es with
    | nil => simp [collect, Entity.id, Entity.entities]
    | cons e' es' => simp [collect, Entity.id, Entity.entities, collectList_zero]

/-- The root id heads every `collect` result. -/
theorem collect_head (e : Entity) (b : Nat) : ∃ rest, collect e b = e.id :: rest := by
  cases e with
  | mk i n es => exact ⟨_, rfl⟩

example : BELONGS_TO_ENTITY nurseHtaOne patientHtaOne patientRule = .ok true := by decide

example : BELONGS_TO_SUB_ENTITIES managerCvs patientHtaOne patientRule = .ok true := by decide

example : BELONGS_TO_ENTITY managerCvs patientHtaOne patientRule = .ok false := by decide

example : BELONGS_TO_SUB_ENTITIES managerCvs patientSeOne patientRule = .ok false := by decide

example : BELONGS_TO_ENTITY_TREE adminSm patientSeOne patientRule = .ok true := by decide

example : BELONGS_TO_SUB_ENTITIES adminSm patientSeOne patientRule = .ok false := by decide

example : IS_CAREGIVER nurseHtaOne patientSeOne patientRule = false := by decide

/-- Fact: `List.contains` agrees with list membership. -/
theorem contains_iff_mem (l : List String) (a : String) :
    l.contains a = true ↔ a ∈ l := by
  rw [List.contains]
  exact List.elem_iff

/-- Nonemptiness of `_intersection` agrees with a common member. -/
theorem inter_nonempty_iff (l1 l2 : List String) :
    ((!(l1.inter l2).isEmpty) = true) ↔ ∃ x, x ∈ l1 ∧ x ∈ l2 := by
  constructor
  · intro h
    have hne : l1.inter l2 ≠ [] := by
      intro hnil
      rw [hnil] at h
      simp at h
    rcases List.exists_mem_of_ne_nil _ hne with ⟨x, hx⟩
    exact ⟨x, List.mem_inter_iff.mp hx⟩
  · intro ⟨x, h1, h2⟩
    have hx : x ∈ l1.inter l2 := List.mem_inter_iff.mpr ⟨h1, h2⟩
    cases hl : (l1.inter l2).isEmpty with
    | false => simp
    | true =>
      rw [List.isEmpty_iff] at hl
      rw [hl] at hx
      cases hx

/-- Claim C9: for every user, subject and rule context, if
`IS_PRIMARY_CAREGIVER(user, subject, rule)` is true then
`IS_CAREGIVER(user, subject, rule)` is true (monotonic widening of the
caregiver relation). -/
theorem isCaregiver_of_isPrimaryCaregiver (u : User) (p : Subject) (r : Rule)
    (h : IS_PRIMARY_CAREGIVER u p r = true) :
    IS_CAREGIVER u p r = true := by
  simp [IS_CAREGIVER, h]

theorem isCaregiver_of_isPrimaryCaregiver_witness :
    IS_PRIMARY_CAREGIVER nurseHtaOne patientHtaOne patientRule = true ∧
    IS_CAREGIVER nurseHtaOne patientHtaOne patientRule = true :=
  ⟨by decide,
   isCaregiver_of_isPrimaryCaregiver nurseHtaOne patientHtaOne patientRule (by decide)⟩

/-- Claim C10: `IS_PRIMARY_CAREGIVER` and `IS_CAREGIVER` are total boolean
functions (their embedded type is `Bool`, not `Except Err Bool`: they can
never raise the unsupported-subject error), and their value is determined
solely by `user.id`, `subject.caregiverId` and `subject.caregiverIds` — in
particular they never inspect `rule.subject`, so any rule contexts, even
with unsupported type names, give the same answer. -/
theorem caregiver_predicates_determined (u1 u2 : User) (s1 s2 : Subject) (r1 r2 : Rule)
    (hid : u1.id = u2.id) (hcg : s1.caregiverId = s2.caregiverId)
    (hcgs : s1.caregiverIds = s2.caregiverIds) :
    IS_PRIMARY_CAREGIVER u1 s1 r1 = IS_PRIMARY_CAREGIVER u2 s2 r2 ∧
    IS_CAREGIVER u1 s1 r1 = IS_CAREGIVER u2 s2 r2 := by
  have h1 : IS_PRIMARY_CAREGIVER u1 s1 r1 = IS_PRIMARY_CAREGIVER u2 s2 r2 := by
    unfold IS_PRIMARY_CAREGIVER
    rw [hid, hcg]
  refine ⟨h1, ?_⟩
  unfold IS_CAREGIVER
  rw [h1, hid, hcgs]

theorem caregiver_predicates_determined_witness :
    IS_CAREGIVER nurseHtaOne patientHtaOne patientRule =
      IS_CAREGIVER nurseHtaOne patientHtaOne { subject := "Widget" } :=
  (caregiver_predicates_determined nurseHtaOne nurseHtaOne patientHtaOne patientHtaOne
    patientRule { subject := "Widget" } rfl rfl rfl).2

/-- Claim C7: for every subject whose rule type-name string is outside the
supported set (`User`, `Entity`, `Patient`), each entity-membership
predicate raises the fatal unsupported-subject error rather than returning
a boolean. -/
theorem entity_predicates_unsupported_subject (u : User) (s : Subject) (r : Rule)
    (h1 : r.subject ≠ "User") (h2 : r.subject ≠ "Entity") (h3 : r.subject ≠ "Patient") :
    BELONGS_TO_ENTITY u s r = .error (.unsupportedSubject r.subject) ∧
    BELONGS_TO_SUB_ENTITIES u s r = .error (.unsupportedSubject r.subject) ∧
    BELONGS_TO_ENTITY_TREE u s r = .error (.unsupportedSubject r.subject) := by
  have hb : BELONGS_TO_ENTITY u s r = .error (.unsupportedSubject r.subject) := by
    simp [BELONGS_TO_ENTITY, h1, h2, h3]
  refine ⟨hb, ?_, ?_⟩
  · simp [BELONGS_TO_SUB_ENTITIES, hb]
  · simp [BELONGS_TO_ENTITY_TREE, hb]

theorem entity_predicates_unsupported_subject_witness :
    BELONGS_TO_ENTITY nurseHtaOne patientHtaOne { subject := "Widget" } =
      .error (.unsupportedSubject "Widget") ∧
    BELONGS_TO_ENTITY_TREE nurseHtaOne patientHtaOne { subject := "Widget" } =
      .error (.unsupportedSubject "Widget") :=
  ⟨(entity_predicates_unsupported_subject nurseHtaOne patientHtaOne { subject := "Widget" }
      (by decide) (by decide) (by decide)).1,
   (entity_predicates_unsupported_subject nurseHtaOne patientHtaOne { subject := "Widget" }
      (by decide) (by decide) (by decide)).2.2⟩

/-- Fact: `_getIds` from the top-level call site (`_getIds(user.entity, [], levels, 0)`)
agrees with the accumulator-free `collect`. -/
theorem getIds_zero (e : Entity) (d : Nat) : getIds e [] d 0 = collect e d := by
  have h := getIds_eq_collect e [] d 0 (Nat.zero_le d)
  simpa using h

/-- Fact: `_entityMembership` is monotone in the collected id set. -/
theorem entityMembership_mono (ids1 ids2 : List String) (s : Subject) (r : Rule)
    (hsub : ∀ x, x ∈ ids1 → x ∈ ids2)
    (h : entityMembership ids1 s r = .ok true) :
    entityMembership ids2 s r = .ok true := by
  have hcont : ∀ sid, ids1.contains sid = true → ids2.contains sid = true := by
    intro sid hc
    rw [contains_iff_mem] at hc ⊢
    exact hsub sid hc
  unfold entityMembership at h ⊢
  by_cases hU : (r.subject == "User") = true
  · rw [if_pos hU] at h ⊢
    cases hres : userSubjectEntityId s with
    | error err =>
      rw [hres] at h
      change Except.error err = Except.ok true at h
      cases h
    | ok sid =>
      rw [hres] at h
      change Except.ok (ids1.contains sid) = Except.ok true at h
      show Except.ok (ids2.contains sid) = Except.ok true
      rw [hcont sid (Except.ok.inj h)]
  · rw [if_neg hU] at h ⊢
    by_cases hE : (r.subject == "Entity") = true
    · rw [if_pos hE] at h ⊢
      cases hid : entitySubjectId s with
      | none =>
        rw [hid] at h
        change Except.ok false = Except.ok true at h
        cases Except.ok.inj h
      | some sid =>
        rw [hid] at h
        change Except.ok (ids1.contains sid) = Except.ok true at h
        show Except.ok (ids2.contains sid) = Except.ok true
        rw [hcont sid (Except.ok.inj h)]
    · rw [if_neg hE] at h ⊢
      by_cases hP : (r.subject == "Patient") = true
      · rw [if_pos hP] at h ⊢
        cases hel : patientSubjectEntityIds s with
        | none =>
          rw [hel] at h
          change Except.ok false = Except.ok true at h
          cases Except.ok.inj h
        | some l =>
          rw [hel] at h
          change Except.ok (!(ids1.inter l).isEmpty) = Except.ok true at h
          obtain ⟨x, hx1, hx2⟩ := (inter_nonempty_iff ids1 l).mp (Except.ok.inj h)
          have h3 : (!(ids2.inter l).isEmpty) = true :=
            (inter_nonempty_iff ids2 l).mpr ⟨x, hsub x hx1, hx2⟩
          show Except.ok (!(ids2.inter l).isEmpty) = Except.ok true
          rw [h3]
      · rw [if_neg hP] at h
        cases h

/-- Claim C5: for every user, subject and rule context, a true
`BELONGS_TO_SUB_ENTITIES` implies a true `BELONGS_TO_ENTITY_TREE`, and a
true `BELONGS_TO_ENTITY` implies both (monotonic widening:
tree contains sub-entities contains direct). -/
theorem scope_predicates_monotone_widening (u : User) (s : Subject) (r : Rule) :
    (BELONGS_TO_SUB_ENTITIES u s r = .ok true → BELONGS_TO_ENTITY_TREE u s r = .ok true) ∧
    (BELONGS_TO_ENTITY u s r = .ok true →
      BELONGS_TO_SUB_ENTITIES u s r = .ok true ∧ BELONGS_TO_ENTITY_TREE u s r = .ok true) := by
  constructor
  · intro h
    unfold BELONGS_TO_SUB_ENTITIES at h
    unfold BELONGS_TO_ENTITY_TREE
    cases hbe : BELONGS_TO_ENTITY u s r with
    | error err =>
      rw [hbe] at h
      cases h
    | ok b =>
      rw [hbe] at h
      cases b with
      | true => rfl
      | false =>
        have hsub : ∀ x, x ∈ getIds u.entity [] 1 0 → x ∈ getIds u.entity [] 10000 0 := by
          rw [getIds_zero, getIds_zero]
          intro x hx
          exact (collect_mono u.entity 1 10000 (by omega)).subset hx
        exact entityMembership_mono _ _ s r hsub h
  · intro h
    constructor
    · unfold BELONGS_TO_SUB_ENTITIES
      rw [h]
    · unfold BELONGS_TO_ENTITY_TREE
      rw [h]

theorem scope_predicates_monotone_widening_witness :
    BELONGS_TO_ENTITY_TREE managerCvs patientHtaOne patientRule = .ok true ∧
    BELONGS_TO_SUB_ENTITIES nurseHtaOne patientHtaOne patientRule = .ok true :=
  ⟨(scope_predicates_monotone_widening managerCvs patientHtaOne patientRule).1 (by decide),
   ((scope_predicates_monotone_widening nurseHtaOne patientHtaOne patientRule).2 (by decide)).1⟩

/-- Fact: `subtreeIds` unfolded through the accessors. -/
theorem subtreeIds_def (e : Entity) : subtreeIds e = e.id :: subtreeIdsList e.entities := by
  cases e
  rfl

/-- The root id belongs to the full subtree id list. -/
theorem root_mem_subtreeIds (e : Entity) : e.id ∈ subtreeIds e := by
  rw [subtreeIds_def]
  exact List.mem_cons_self _ _

/-- Claim C8 (amended): the collected list always contains the root id;
for a childless entity it is exactly the root id for every depth; with
`maxDepth = 1` it is exactly the root id followed by the immediate
children's ids; and it is duplicate-free whenever the tree's ids are
pairwise distinct (with repeated ids in the tree, duplicates do occur —
see the counterexample). -/
theorem getIds_structure (e : Entity) (d : Nat) :
    e.id ∈ getIds e [] d 0 ∧
    (e.entities = [] → getIds e [] d 0 = [e.id]) ∧
    getIds e [] 1 0 = e.id :: e.entities.map Entity.id ∧
    ((subtreeIds e).Nodup → (getIds e [] d 0).Nodup) := by
  rw [getIds_zero e d, getIds_zero e 1]
  refine ⟨?_, ?_, collect_one e, ?_⟩
  · obtain ⟨rest, hr⟩ := collect_head e d
    rw [hr]
    exact List.mem_cons_self _ _
  · intro hempty
    cases e with
    | mk i n es =>
      have : es = [] := hempty
      subst this
      simp [collect, Entity.id]
  · intro hn
    exact hn.sublist (collect_sublist_subtreeIds e d)

theorem getIds_structure_witness :
    getIds htaOne [] 9 0 = ["hta1"] ∧ (getIds cvs [] 9 0).Nodup :=
  ⟨(getIds_structure htaOne 9).2.1 rfl,
   (getIds_structure cvs 9).2.2.2 (by decide)⟩

/-- Claim C8 counterexample: the collected ids are an array built by
repeated `push`, so a tree with repeated entity ids yields duplicates for
every `maxDepth`, refuting the unconditional no-duplicates clause. -/
theorem getIds_duplicates :
    getIds dupEntity [] 5 0 = ["r", "a", "a"] ∧ ¬ (getIds dupEntity [] 5 0).Nodup := by
  constructor
  · decide
  · decide

/-- The spec-side full-subtree membership coincides with a true
`_entityMembership` over the full subtree id list (for every rule context:
with an unsupported type name or a failed resolution both sides refuse). -/
theorem fullTreeMember_iff_entityMembership (u : User) (s : Subject) (r : Rule) :
    fullTreeMember u s r = true ↔
      entityMembership (subtreeIds u.entity) s r = .ok true := by
  unfold fullTreeMember entityMembership
  by_cases hU : (r.subject == "User") = true
  · rw [if_pos hU, if_pos hU]
    cases hres : userSubjectEntityId s with
    | error err =>
      change false = true ↔ Except.error err = Except.ok true
      constructor
      · intro h
        cases h
      · intro h
        cases h
    | ok sid =>
      change ((subtreeIds u.entity).contains sid) = true ↔
        Except.ok ((subtreeIds u.entity).contains sid) = Except.ok true
      constructor
      · intro h
        rw [h]
      · intro h
        exact Except.ok.inj h
  · rw [if_neg hU, if_neg hU]
    by_cases hE : (r.subject == "Entity") = true
    · rw [if_pos hE, if_pos hE]
      constructor
      · intro h
        rw [h]
      · intro h
        exact Except.ok.inj h
    · rw [if_neg hE, if_neg hE]
      by_cases hP : (r.subject == "Patient") = true
      · rw [if_pos hP, if_pos hP]
        constructor
        · intro h
          rw [h]
        · intro h
          exact Except.ok.inj h
      · rw [if_neg hP, if_neg hP]
        constructor
        · intro h
          cases h
        · intro h
          cases h

/-- A true direct membership (`BELONGS_TO_ENTITY`) gives a true
`_entityMembership` over the full subtree: the resolved id is the user's
own entity id, which heads the subtree list. -/
theorem entityMembership_subtree_of_direct (u : User) (s : Subject) (r : Rule)
    (h : BELONGS_TO_ENTITY u s r = .ok true) :
    entityMembership (subtreeIds u.entity) s r = .ok true := by
  unfold BELONGS_TO_ENTITY at h
  unfold entityMembership
  by_cases hU : (r.subject == "User") = true
  · rw [if_pos hU] at h ⊢
    cases hres : userSubjectEntityId s with
    | error err =>
      rw [hres] at h
      change Except.error err = Except.ok true at h
      cases h
    | ok sid =>
      rw [hres] at h
      change Except.ok (u.entity.id == sid) = Except.ok true at h
      have hsid : sid = u.entity.id := (eq_of_beq (Except.ok.inj h)).symm
      show Except.ok ((subtreeIds u.entity).contains sid) = Except.ok true
      rw [hsid, (contains_iff_mem _ _).mpr (root_mem_subtreeIds u.entity)]
  · rw [if_neg hU] at h ⊢
    by_cases hE : (r.subject == "Entity") = true
    · rw [if_pos hE] at h ⊢
      cases hres : entitySubjectId s with
      | none =>
        rw [hres] at h
        change Except.ok false = Except.ok true at h
        cases Except.ok.inj h
      | some sid =>
        rw [hres] at h
        change Except.ok (u.entity.id == sid) = Except.ok true at h
        have hsid : sid = u.entity.id := (eq_of_beq (Except.ok.inj h)).symm
        show Except.ok ((subtreeIds u.entity).contains sid) = Except.ok true
        rw [hsid, (contains_iff_mem _ _).mpr (root_mem_subtreeIds u.entity)]
    · rw [if_neg hE] at h ⊢
      by_cases hP : (r.subject == "Patient") = true
      · rw [if_pos hP] at h ⊢
        cases hres : patientSubjectEntityIds s with
        | none =>
          rw [hres] at h
          change Except.ok false = Except.ok true at h
          cases Except.ok.inj h
        | some l =>
          rw [hres] at h
          change Except.ok (l.contains u.entity.id) = Except.ok true at h
          have hmem : u.entity.id ∈ l := (contains_iff_mem _ _).mp (Except.ok.inj h)
          have hnon : (!((subtreeIds u.entity).inter l).isEmpty) = true :=
            (inter_nonempty_iff _ l).mpr ⟨u.entity.id, root_mem_subtreeIds u.entity, hmem⟩
          show Except.ok (!((subtreeIds u.entity).inter l).isEmpty) = Except.ok true
          rw [hnon]
      · rw [if_neg hP] at h
        cases h

/-- A fatally failing direct membership, for a supported subject type,
fails `_entityMembership` with the same error (the resolution error does
not depend on the collected id list). -/
theorem entityMembership_error_of_direct_error (u : User) (s : Subject) (r : Rule)
    (ids : List String) (err : Err)
    (hr : r.subject = "User" ∨ r.subject = "Entity" ∨ r.subject = "Patient")
    (h : BELONGS_TO_ENTITY u s r = .error err) :
    entityMembership ids s r = .error err := by
  unfold BELONGS_TO_ENTITY at h
  unfold entityMembership
  by_cases hU : (r.subject == "User") = true
  · rw [if_pos hU] at h ⊢
    cases hres : userSubjectEntityId s with
    | error e2 =>
      rw [hres] at h
      change Except.error e2 = Except.error err at h
      change Except.error e2 = Except.error err
      exact h
    | ok sid =>
      rw [hres] at h
      change Except.ok (u.entity.id == sid) = Except.error err at h
      cases h
  · rw [if_neg hU] at h ⊢
    by_cases hE : (r.subject == "Entity") = true
    · rw [if_pos hE] at h
      exact absurd h (by simp)
    · rw [if_neg hE] at h ⊢
      by_cases hP : (r.subject == "Patient") = true
      · rw [if_pos hP] at h
        exact absurd h (by simp)
      · exfalso
        rcases hr with hs | hs | hs
        · rw [hs] at hU
          exact hU rfl
        · rw [hs] at hE
          exact hE rfl
        · rw [hs] at hP
          exact hP rfl

/-- Claim C1 (amended): `BELONGS_TO_ENTITY_TREE` walks the tree with the
magic depth limit 10000 rather than unboundedly; for every user whose
entity tree is at most 10000 levels deep it agrees exactly with
full-subtree membership (the claim as stated, with no depth cutoff at all,
fails — see the cutoff counterexample). -/
theorem tree_scope_iff_full_subtree (u : User) (s : Subject) (r : Rule)
    (hd : edepth u.entity ≤ 10000)
    (hr : r.subject = "User" ∨ r.subject = "Entity" ∨ r.subject = "Patient") :
    (BELONGS_TO_ENTITY_TREE u s r = .ok true) ↔ fullTreeMember u s r = true := by
  rw [fullTreeMember_iff_entityMembership]
  have hids : getIds u.entity [] 10000 0 = subtreeIds u.entity := by
    rw [getIds_zero, collect_saturates u.entity 10000 hd]
  unfold BELONGS_TO_ENTITY_TREE
  rw [hids]
  cases hbe : BELONGS_TO_ENTITY u s r with
  | error err =>
    rw [entityMembership_error_of_direct_error u s r (subtreeIds u.entity) err hr hbe]
  | ok b =>
    cases b with
    | true =>
      rw [entityMembership_subtree_of_direct u s r hbe]
    | false => exact Iff.rfl

theorem tree_scope_iff_full_subtree_witness :
    BELONGS_TO_ENTITY_TREE adminSm patientSeOne patientRule = .ok true :=
  (tree_scope_iff_full_subtree adminSm patientSeOne patientRule (by decide)
    (Or.inr (Or.inr rfl))).mpr (by decide)

theorem chainEntity_succ (n : Nat) :
    chainEntity (n + 1) = .mk "node" "node" [chainEntity n] := rfl

theorem leaf_mem_collect_iff (n b : Nat) :
    ("leaf" ∈ collect (chainEntity n) b) ↔ n ≤ b := by
  induction n generalizing b with
  | zero =>
    simp [chainEntity, collect]
  | succ n ih =>
    rw [chainEntity_succ]
    by_cases hb : b = 0
    · subst hb
      simp [collect]
    · have hcol : collect (.mk "node" "node" [chainEntity n]) b =
          "node" :: (collect (chainEntity n) (b - 1) ++ []) := by
        simp [collect, collectList, hb]
      rw [hcol]
      simp only [List.append_nil, List.mem_cons]
      rw [ih (b - 1)]
      constructor
      · rintro (h | h)
        · exact absurd h (by decide)
        · omega
      · intro h
        exact Or.inr (by omega)

theorem leaf_mem_subtreeIds (n : Nat) : "leaf" ∈ subtreeIds (chainEntity n) := by
  induction n with
  | zero => simp [chainEntity, subtreeIds, subtreeIdsList]
  | succ n ih =>
    rw [chainEntity_succ]
    have hrw : subtreeIds (.mk "node" "node" [chainEntity n]) =
        "node" :: (subtreeIds (chainEntity n) ++ []) := by
      simp [subtreeIds, subtreeIdsList]
    rw [hrw]
    simp only [List.append_nil, List.mem_cons]
    exact Or.inr ih

/-- Claim C1 counterexample: on a chain 10001 levels deep, the deepest
entity belongs to the full descendant subtree of the user's entity, yet
`BELONGS_TO_ENTITY_TREE` answers `false` — the walk is cut off by the magic
constant `10000`, so the claim's "unbounded, no magic large integer" reading
is false on the code. -/
theorem tree_scope_depth_cutoff :
    BELONGS_TO_ENTITY_TREE deepUser leafSubject entityRule = .ok false ∧
    fullTreeMember deepUser leafSubject entityRule = true := by
  have hchain : chainEntity 10001 = .mk "node" "node" [chainEntity 10000] :=
    chainEntity_succ 10000
  have hid : deepUser.entity.id = "node" := by
    show (chainEntity 10001).id = "node"
    rw [hchain]
    rfl
  have hres : entitySubjectId leafSubject = some "leaf" := rfl
  have hnm : ¬ ("leaf" ∈ getIds deepUser.entity [] 10000 0) := by
    show ¬ ("leaf" ∈ getIds (chainEntity 10001) [] 10000 0)
    rw [getIds_zero, leaf_mem_collect_iff]
    omega
  have hcontains : (getIds deepUser.entity [] 10000 0).contains "leaf" = false := by
    cases hc : (getIds deepUser.entity [] 10000 0).contains "leaf" with
    | false => rfl
    | true => exact absurd ((contains_iff_mem _ _).mp hc) hnm
  have hbe : BELONGS_TO_ENTITY deepUser leafSubject entityRule = .ok false := by
    unfold BELONGS_TO_ENTITY
    rw [if_neg (show ¬ ((entityRule.subject == "User") = true) from by decide),
      if_pos (show (entityRule.subject == "Entity") = true from rfl)]
    show Except.ok (jsStrictEqOpt deepUser.entity.id (entitySubjectId leafSubject)) =
      Except.ok false
    rw [hres]
    show Except.ok (deepUser.entity.id == "leaf") = Except.ok false
    rw [hid]
    rfl
  have htree : BELONGS_TO_ENTITY_TREE deepUser leafSubject entityRule = .ok false := by
    unfold BELONGS_TO_ENTITY_TREE
    rw [hbe]
    show entityMembership (getIds deepUser.entity [] 10000 0) leafSubject entityRule =
      .ok false
    unfold entityMembership
    rw [if_neg (show ¬ ((entityRule.subject == "User") = true) from by decide),
      if_pos (show (entityRule.subject == "Entity") = true from rfl)]
    show Except.ok (jsIndexOfFoundOpt (getIds deepUser.entity [] 10000 0)
      (entitySubjectId leafSubject)) = Except.ok false
    rw [hres]
    show Except.ok ((getIds deepUser.entity [] 10000 0).contains "leaf") = Except.ok false
    rw [hcontains]
  have hfull : fullTreeMember deepUser leafSubject entityRule = true := by
    unfold fullTreeMember
    rw [if_neg (show ¬ ((entityRule.subject == "User") = true) from by decide),
      if_pos (show (entityRule.subject == "Entity") = true from rfl)]
    show jsIndexOfFoundOpt (subtreeIds deepUser.entity) (entitySubjectId leafSubject) = true
    rw [hres]
    show (subtreeIds deepUser.entity).contains "leaf" = true
    exact (contains_iff_mem _ _).mpr (leaf_mem_subtreeIds 10001)
  exact ⟨htree, hfull⟩

/-- Claim C4 (amended): with every optional relational field absent, the
caregiver predicates and the entity predicates for `Patient` and `Entity`
subjects return the non-fatal result `false`; but for a `"User"` subject
with both `entityId` and `entity` absent, the fallback `subject.entity.id`
dereferences an undefined value, so all three entity predicates fail with a
fatal `TypeError` rather than returning `false` (refuting the claim's
never-an-error clause — see the counterexample). -/
theorem predicates_on_absent_fields (u : User) (s : Subject) (r : Rule)
    (hsid : s.id = none) (heid : s.entityId = none) (heids : s.entityIds = none)
    (hent : s.entity = none) (hcg : s.caregiverId = none) (hcgs : s.caregiverIds = none) :
    IS_PRIMARY_CAREGIVER u s r = false ∧
    IS_CAREGIVER u s r = false ∧
    (r.subject = "Patient" →
      BELONGS_TO_ENTITY u s r = .ok false ∧
      BELONGS_TO_SUB_ENTITIES u s r = .ok false ∧
      BELONGS_TO_ENTITY_TREE u s r = .ok false) ∧
    (r.subject = "Entity" →
      BELONGS_TO_ENTITY u s r = .ok false ∧
      BELONGS_TO_SUB_ENTITIES u s r = .ok false ∧
      BELONGS_TO_ENTITY_TREE u s r = .ok false) ∧
    (r.subject = "User" →
      BELONGS_TO_ENTITY u s r = .error .typeError ∧
      BELONGS_TO_SUB_ENTITIES u s r = .error .typeError ∧
      BELONGS_TO_ENTITY_TREE u s r = .error .typeError) := by
  have hprim : IS_PRIMARY_CAREGIVER u s r = false := by
    unfold IS_PRIMARY_CAREGIVER
    rw [hcg]
    rfl
  have hcare : IS_CAREGIVER u s r = false := by
    unfold IS_CAREGIVER
    rw [hprim, hcgs]
    rfl
  have hpat : patientSubjectEntityIds s = none := by
    unfold patientSubjectEntityIds
    rw [heid, heids]
  have hent2 : entitySubjectId s = none := by
    unfold entitySubjectId
    rw [heid, hsid]
  have hues : userSubjectEntityId s = .error .typeError := by
    unfold userSubjectEntityId userSubjectEntityFallback
    rw [heid, hent]
  refine ⟨hprim, hcare, ?_, ?_, ?_⟩
  · intro hP
    have hbe : BELONGS_TO_ENTITY u s r = .ok false := by
      unfold BELONGS_TO_ENTITY
      rw [hP, if_neg (by decide), if_neg (by decide), if_pos (by decide)]
      show Except.ok (jsIndexOfFound (patientSubjectEntityIds s) u.entity.id) = Except.ok false
      rw [hpat]
      rfl
    have hmem : ∀ ids, entityMembership ids s r = .ok false := by
      intro ids
      unfold entityMembership
      rw [hP, if_neg (by decide), if_neg (by decide), if_pos (by decide)]
      show Except.ok (jsIntersectionNonempty ids (patientSubjectEntityIds s)) = Except.ok false
      rw [hpat]
      rfl
    refine ⟨hbe, ?_, ?_⟩
    · unfold BELONGS_TO_SUB_ENTITIES
      rw [hbe]
      exact hmem _
    · unfold BELONGS_TO_ENTITY_TREE
      rw [hbe]
      exact hmem _
  · intro hE
    have hbe : BELONGS_TO_ENTITY u s r = .ok false := by
      unfold BELONGS_TO_ENTITY
      rw [hE, if_neg (by decide), if_pos (by decide)]
      show Except.ok (jsStrictEqOpt u.entity.id (entitySubjectId s)) = Except.ok false
      rw [hent2]
      rfl
    have hmem : ∀ ids, entityMembership ids s r = .ok false := by
      intro ids
      unfold entityMembership
      rw [hE, if_neg (by decide), if_pos (by decide)]
      show Except.ok (jsIndexOfFoundOpt ids (entitySubjectId s)) = Except.ok false
      rw [hent2]
      rfl
    refine ⟨hbe, ?_, ?_⟩
    · unfold BELONGS_TO_SUB_ENTITIES
      rw [hbe]
      exact hmem _
    · unfold BELONGS_TO_ENTITY_TREE
      rw [hbe]
      exact hmem _
  · intro hU
    have hbe : BELONGS_TO_ENTITY u s r = .error .typeError := by
      unfold BELONGS_TO_ENTITY
      rw [hU, if_pos (by decide)]
      show Except.map (fun sid => u.entity.id == sid) (userSubjectEntityId s) =
        .error .typeError
      rw [hues]
      rfl
    refine ⟨hbe, ?_, ?_⟩
    · unfold BELONGS_TO_SUB_ENTITIES
      rw [hbe]
    · unfold BELONGS_TO_ENTITY_TREE
      rw [hbe]

theorem predicates_on_absent_fields_witness :
    IS_CAREGIVER nurseHtaOne Subject.empty patientRule = false ∧
    BELONGS_TO_ENTITY_TREE nurseHtaOne Subject.empty patientRule = .ok false :=
  ⟨(predicates_on_absent_fields nurseHtaOne Subject.empty patientRule
      rfl rfl rfl rfl rfl rfl).2.1,
   ((predicates_on_absent_fields nurseHtaOne Subject.empty patientRule
      rfl rfl rfl rfl rfl rfl).2.2.1 rfl).2.2⟩

/-- Claim C4 counterexample: a `"User"`-typed subject with every optional
field absent makes each entity predicate throw a fatal `TypeError`
(`subject.entity.id` on an undefined `entity`), where the claim requires a
non-fatal `false`. -/
theorem absent_entity_user_subject_fatal :
    BELONGS_TO_ENTITY nurseHtaOne Subject.empty userRule = .error .typeError ∧
    BELONGS_TO_SUB_ENTITIES nurseHtaOne Subject.empty userRule = .error .typeError ∧
    BELONGS_TO_ENTITY_TREE nurseHtaOne Subject.empty userRule = .error .typeError := by
  refine ⟨by decide, by decide, by decide⟩

/-- The conditions-resolution step never touches the `scope` field. -/
theorem resolveConditionsStep_scope (user : User) (p p' : PermissionDecl)
    (h : resolveConditionsStep user p = .ok p') : p'.scope = p.scope := by
  unfold resolveConditionsStep at h
  by_cases hc : condTruthy p.conditions = true
  · rw [if_pos hc] at h
    cases hcc : p.conditions with
    | none =>
      rw [hcc] at h
      cases Except.ok.inj h
      rfl
    | some c =>
      rw [hcc] at h
      change (match resolveVariables c (.obj [("user", userToJson user)]) with
        | Except.error e => Except.error e
        | Except.ok c' => Except.ok { p with conditions := some c' }) = Except.ok p' at h
      cases hrv : resolveVariables c (.obj [("user", userToJson user)]) with
      | error e =>
        rw [hrv] at h
        cases h
      | ok c' =>
        rw [hrv] at h
        cases Except.ok.inj h
        rfl
  · rw [if_neg hc] at h
    cases Except.ok.inj h
    rfl

/-- Scope binding throws on a permission with an unknown scope name. -/
theorem bindScopeStep_err (user : User) (p : PermissionDecl)
    (h : permHasUnknownScope p) : ∃ e, bindScopeStep user p = .error e := by
  obtain ⟨hf, nm, hmem, hnot⟩ := h
  unfold bindScopeStep
  rw [hf, if_neg (show (false = true) → False from fun hff => by cases hff)]
  have hsome : ((scopeNames p.scope).find? (fun n => !SCOPE_NAMES.contains n)).isSome := by
    rw [List.find?_isSome]
    refine ⟨nm, hmem, ?_⟩
    cases hc : SCOPE_NAMES.contains nm with
    | false => rfl
    | true => exact absurd ((contains_iff_mem _ _).mp hc) hnot
  obtain ⟨bad, hbad⟩ := Option.isSome_iff_exists.mp hsome
  rw [hbad]
  exact ⟨.unknownScope bad, rfl⟩

/-- Processing a permission with an unknown scope name fails (either at the
earlier conditions-resolution throw, or at the scope-name check). -/
theorem decoratePerm_err (user : User) (p : PermissionDecl)
    (h : permHasUnknownScope p) : ∃ e, decoratePerm user p = .error e := by
  unfold decoratePerm
  cases hrc : resolveConditionsStep user p with
  | error e => exact ⟨e, rfl⟩
  | ok p' =>
    have hsc : p'.scope = p.scope := resolveConditionsStep_scope user p p' hrc
    have h' : permHasUnknownScope p' := by
      unfold permHasUnknownScope
      rw [hsc]
      exact h
    obtain ⟨e, he⟩ := bindScopeStep_err user p' h'
    refine ⟨e, ?_⟩
    show (match bindScopeStep user p' with
      | Except.error e => Except.error e
      | Except.ok rp => Except.ok (p', rp)) = Except.error e
    rw [he]

theorem decoratePerms_err (user : User) (ps : List PermissionDecl)
    (h : ∃ p ∈ ps, permHasUnknownScope p) :
    ∃ e, decoratePerms user ps = .error e := by
  induction ps with
  | nil =>
    obtain ⟨p, hp, _⟩ := h
    cases hp
  | cons p ps ih =>
    obtain ⟨q, hq, hbad⟩ := h
    unfold decoratePerms
    rcases List.mem_cons.mp hq with heq | hq'
    · subst heq
      obtain ⟨e, he⟩ := decoratePerm_err user q hbad
      rw [he]
      exact ⟨e, rfl⟩
    · cases hd : decoratePerm user p with
      | error e => exact ⟨e, rfl⟩
      | ok pr =>
        obtain ⟨p', rp⟩ := pr
        obtain ⟨e, he⟩ := ih ⟨q, hq', hbad⟩
        rw [he]
        exact ⟨e, rfl⟩

theorem decorateRoles_err (user : User) (rs : List Role)
    (h : ∃ r ∈ rs, ∃ p ∈ r.permissions, permHasUnknownScope p) :
    ∃ e, decorateRoles user rs = .error e := by
  induction rs with
  | nil =>
    obtain ⟨r, hr, _⟩ := h
    cases hr
  | cons r rs ih =>
    obtain ⟨r0, hr0, hbad⟩ := h
    unfold decorateRoles
    rcases List.mem_cons.mp hr0 with heq | hr'
    · subst heq
      obtain ⟨e, he⟩ := decoratePerms_err user r0.permissions hbad
      rw [he]
      exact ⟨e, rfl⟩
    · cases hd : decoratePerms user r.permissions with
      | error e => exact ⟨e, rfl⟩
      | ok pr =>
        obtain ⟨ps', rps⟩ := pr
        obtain ⟨e, he⟩ := ih ⟨r0, hr', hbad⟩
        rw [he]
        exact ⟨e, rfl⟩

/-- Claim C6: for every user one of whose roles carries a permission
declaration naming a scope missing from the catalog, decoration itself
fails fatally — `decorate` (and with it both decoration entry points)
returns an error instead of building any decision object, independent of
any later `can`/`cannot` check; the unknown name is never ignored. -/
theorem decorate_unknown_scope_fatal (u : User)
    (h : ∃ r ∈ u.roles, ∃ p ∈ r.permissions, permHasUnknownScope p) :
    (∃ e, decorate u = .error e) ∧
    (∃ e, decorateUser u = .error e) ∧
    (∃ e, decorateUserImmutable u = .error e) := by
  obtain ⟨e, he⟩ := decorateRoles_err u u.roles h
  have hdec : decorate u = .error e := by
    unfold decorate
    rw [he]
  refine ⟨⟨e, hdec⟩, ⟨e, ?_⟩, ⟨e, ?_⟩⟩
  · unfold decorateUser
    rw [hdec]
  · unfold decorateUserImmutable
    rw [hdec]

theorem decorate_unknown_scope_fatal_witness :
    (∃ e, decorate badScopeUser = .error e) ∧
    decorate badScopeUser = .error (.unknownScope "NOT_A_SCOPE") :=
  ⟨(decorate_unknown_scope_fatal badScopeUser
      ⟨badScopeRole, by simp [badScopeUser], badScopePerm,
        by simp [badScopeRole], by decide, by decide⟩).1,
    by decide⟩

/-- Claim C2 counterexample: decorating `condUser` through the immutable
path resolves the shared role's `conditions` template in place
(`p.conditions = resolveVariables(...)`), so the original user record comes
out of the call with a mutated shared Role configuration — different from
the record that went in — refuting the no-shared-mutation clause. -/
theorem immutable_decoration_mutates_shared_conditions :
    decorateUserImmutable condUser =
      .ok ({ condUser with ability := some [.plain resolvedCondPerm] },
        { condUser with roles := [resolvedCondRole] }) ∧
    ({ condUser with roles := [resolvedCondRole] } : User) ≠ condUser := by
  constructor
  · decide
  · decide

/-- A skipped conditions step returns the declaration unchanged. -/
theorem resolveConditionsStep_none (user : User) (p : PermissionDecl)
    (hc : p.conditions = none) : resolveConditionsStep user p = .ok p := by
  unfold resolveConditionsStep
  rw [hc]
  rfl

/-- With no conditions template, the declaration passes through
`decorate`'s map callback unchanged. -/
theorem decoratePerm_conditions_free (user : User) (p p1 : PermissionDecl) (rp : RPerm)
    (hcp : p.conditions = none) (h : decoratePerm user p = .ok (p1, rp)) : p1 = p := by
  unfold decoratePerm at h
  rw [resolveConditionsStep_none user p hcp] at h
  change (match bindScopeStep user p with
    | Except.error e => Except.error e
    | Except.ok rp => Except.ok (p, rp)) = Except.ok (p1, rp) at h
  cases hb : bindScopeStep user p with
  | error e =>
    rw [hb] at h
    cases h
  | ok rp2 =>
    rw [hb] at h
    have hinj := Except.ok.inj h
    exact (congrArg Prod.fst hinj).symm

theorem decoratePerms_conditions_free (user : User) (ps : List PermissionDecl)
    (hc : ∀ p ∈ ps, p.conditions = none) (ps' : List PermissionDecl) (rps : List RPerm)
    (h : decoratePerms user ps = .ok (ps', rps)) : ps' = ps := by
  induction ps generalizing ps' rps with
  | nil =>
    unfold decoratePerms at h
    cases Except.ok.inj h
    rfl
  | cons p ps ih =>
    unfold decoratePerms at h
    cases hd : decoratePerm user p with
    | error e =>
      rw [hd] at h
      cases h
    | ok pr =>
      obtain ⟨p1, rp⟩ := pr
      rw [hd] at h
      change (match decoratePerms user ps with
        | Except.error e => Except.error e
        | Except.ok (ps', rps) => Except.ok (p1 :: ps', rp :: rps)) =
          Except.ok (ps', rps) at h
      cases hrest : decoratePerms user ps with
      | error e =>
        rw [hrest] at h
        cases h
      | ok pr2 =>
        obtain ⟨ps2, rps2⟩ := pr2
        rw [hrest] at h
        have hinj := Except.ok.inj h
        have hfst : p1 :: ps2 = ps' := congrArg Prod.fst hinj
        have hp1 : p1 = p :=
          decoratePerm_conditions_free user p p1 rp (hc p (List.mem_cons_self p ps)) hd
        have hps2 : ps2 = ps :=
          ih (fun q hq => hc q (List.mem_cons_of_mem p hq)) ps2 rps2 hrest
        rw [← hfst, hp1, hps2]

theorem decorateRoles_conditions_free (user : User) (rs : List Role)
    (hc : ∀ r ∈ rs, ∀ p ∈ r.permissions, p.conditions = none)
    (rs' : List Role) (rps : List RPerm)
    (h : decorateRoles user rs = .ok (rs', rps)) : rs' = rs := by
  induction rs generalizing rs' rps with
  | nil =>
    unfold decorateRoles at h
    cases Except.ok.inj h
    rfl
  | cons r rs ih =>
    unfold decorateRoles at h
    cases hd : decoratePerms user r.permissions with
    | error e =>
      rw [hd] at h
      cases h
    | ok pr =>
      obtain ⟨ps', rps1⟩ := pr
      rw [hd] at h
      change (match decorateRoles user rs with
        | Except.error e => Except.error e
        | Except.ok (rs', rpsRest) =>
          Except.ok ({ r with permissions := ps' } :: rs', rps1 ++ rpsRest)) =
            Except.ok (rs', rps) at h
      cases hrest : decorateRoles user rs with
      | error e =>
        rw [hrest] at h
        cases h
      | ok pr2 =>
        obtain ⟨rs2, rps2⟩ := pr2
        rw [hrest] at h
        have hinj := Except.ok.inj h
        have hfst : ({ r with permissions := ps' } :: rs2) = rs' := congrArg Prod.fst hinj
        have hps : ps' = r.permissions :=
          decoratePerms_conditions_free user r.permissions
            (hc r (List.mem_cons_self r rs)) ps' rps1 hd
        have hrs2 : rs2 = rs :=
          ih (fun q hq p hp => hc q (List.mem_cons_of_mem r hq) p hp) rs2 rps2 hrest
        rw [← hfst, hps, hrs2]

/-- Claim C2 (amended): the immutable decoration never touches the
original's `id`, `entity` or `ability` (no `ability` field appears on it),
and the returned copy carries the pre-call roles plus a fresh decision
object; when no permission carries a `conditions` template nothing at all
is mutated — the original comes back exactly equal and a repeated immutable
decoration returns the identical result (two decision objects answering
every query identically).  When a permission does carry `conditions`, the
shared declaration is rewritten in place — see the counterexample. -/
theorem decorateUserImmutable_frame (u iu u' : User)
    (h : decorateUserImmutable u = .ok (iu, u')) :
    u'.id = u.id ∧ u'.entity = u.entity ∧ u'.ability = u.ability ∧
    iu.id = u.id ∧ iu.entity = u.entity ∧ iu.roles = u.roles ∧
    (∃ ab, iu.ability = some ab) ∧
    ((∀ r ∈ u.roles, ∀ p ∈ r.permissions, p.conditions = none) →
      u' = u ∧ decorateUserImmutable u' = decorateUserImmutable u) := by
  unfold decorateUserImmutable at h
  cases hd : decorate u with
  | error e =>
    rw [hd] at h
    cases h
  | ok pr =>
    obtain ⟨ab, rs'⟩ := pr
    rw [hd] at h
    change Except.ok ({ u with ability := some ab }, { u with roles := rs' }) =
      Except.ok (iu, u') at h
    have hinj := Except.ok.inj h
    have hiu : iu = { u with ability := some ab } := (congrArg Prod.fst hinj).symm
    have hu' : u' = { u with roles := rs' } := (congrArg Prod.snd hinj).symm
    subst hiu
    subst hu'
    refine ⟨rfl, rfl, rfl, rfl, rfl, rfl, ⟨ab, rfl⟩, ?_⟩
    intro hc
    have hrs : rs' = u.roles := by
      unfold decorate at hd
      cases hdr : decorateRoles u u.roles with
      | error e =>
        rw [hdr] at hd
        cases hd
      | ok pr2 =>
        obtain ⟨rs2, rps⟩ := pr2
        rw [hdr] at hd
        change Except.ok (rps, rs2) = Except.ok (ab, rs') at hd
        have hinj2 := Except.ok.inj hd
        have hsnd : rs2 = rs' := congrArg Prod.snd hinj2
        rw [← hsnd]
        exact decorateRoles_conditions_free u u.roles hc rs2 rps hdr
    have hueq : ({ u with roles := rs' } : User) = u := by
      rw [hrs]
    exact ⟨hueq, by rw [hueq]⟩

theorem decorateUserImmutable_frame_witness :
    decorateUserImmutable plainAdminUser = .ok (plainAdminDecorated, plainAdminUser) ∧
    plainAdminDecorated.roles = plainAdminUser.roles ∧
    (∃ ab, plainAdminDecorated.ability = some ab) := by
  have h : decorateUserImmutable plainAdminUser =
      .ok (plainAdminDecorated, plainAdminUser) := by
    decide
  have hall := decorateUserImmutable_frame plainAdminUser plainAdminDecorated plainAdminUser h
  exact ⟨h, hall.2.2.2.2.2.1, hall.2.2.2.2.2.2.1⟩

/-- Claim C3 counterexample: the string `$b` merely starts with a dollar
sign and is not of the exact placeholder form, yet resolution treats it as
a template — it strips two leading and one trailing character, looks up the
empty path, and throws — instead of copying it unchanged as the claim
requires. -/
theorem resolveVariables_dollar_prefix_fatal :
    resolveVariables (.str "$b") (.obj [("user", .str "u")]) =
      .error (.undefinedVariable "") := by
  decide

theorem noDollarList_mem (l : List Json) (h : noDollarList l = true) (v : Json)
    (hv : v ∈ l) : noDollar v = true := by
  induction l with
  | nil => cases hv
  | cons w l ih =>
    have h' : (noDollar w && noDollarList l) = true := h
    rw [Bool.and_eq_true] at h'
    rcases List.mem_cons.mp hv with heq | hv'
    · rw [heq]
      exact h'.1
    · exact ih h'.2 hv'

theorem noDollarFields_mem (fs : List (String × Json)) (h : noDollarFields fs = true)
    (k : String) (v : Json) (hv : (k, v) ∈ fs) : noDollar v = true := by
  induction fs with
  | nil => cases hv
  | cons f fs ih =>
    obtain ⟨k1, v1⟩ := f
    have h' : (noDollar v1 && noDollarFields fs) = true := h
    rw [Bool.and_eq_true] at h'
    rcases List.mem_cons.mp hv with heq | hv'
    · cases heq
      exact h'.1
    · exact ih h'.2 hv'

theorem jsGetStep_noDollar (v : Json) (k : String) (w : Json)
    (hv : noDollar v = true) (h : jsGetStep v k = some w) : noDollar w = true := by
  cases v with
  | obj fields =>
    unfold jsGetStep at h
    change (fields.find? (fun f => f.fst == k)).map (fun f => f.snd) = some w at h
    cases hf : fields.find? (fun f => f.fst == k) with
    | none =>
      rw [hf] at h
      cases h
    | some f =>
      rw [hf] at h
      obtain ⟨k1, v1⟩ := f
      have hmem := List.mem_of_find?_eq_some hf
      cases Option.some.inj h
      exact noDollarFields_mem fields hv k1 v1 hmem
  | arr elems =>
    unfold jsGetStep at h
    change (match k.toNat? with
      | some i => elems.get? i
      | none => none) = some w at h
    cases hk : k.toNat? with
    | none =>
      rw [hk] at h
      cases h
    | some i =>
      rw [hk] at h
      exact noDollarList_mem elems hv w (List.get?_mem h)
  | null => cases h
  | bool b => cases h
  | num n => cases h
  | str s => cases h

theorem jsGet_fold_noDollar (path : List String) :
    ∀ (acc : Option Json), (∀ x, acc = some x → noDollar x = true) →
    ∀ w, path.foldl (fun acc k =>
        match acc with
        | some v => jsGetStep v k
        | none => none) acc = some w → noDollar w = true := by
  induction path with
  | nil =>
    intro acc hacc w h
    exact hacc w h
  | cons k path ih =>
    intro acc hacc w h
    rw [List.foldl_cons] at h
    refine ih _ ?_ w h
    intro x hx
    cases acc with
    | none => cases hx
    | some v => exact jsGetStep_noDollar v k x (hacc v rfl) hx

theorem jsGet_noDollar (vars : Json) (path : List String) (w : Json)
    (hv : noDollar vars = true) (h : jsGet vars path = some w) : noDollar w = true := by
  unfold jsGet at h
  by_cases hp : path.isEmpty
  · rw [if_pos hp] at h
    cases h
  · rw [if_neg hp] at h
    refine jsGet_fold_noDollar path (some vars) ?_ w h
    intro x hx
    cases Option.some.inj hx
    exact hv

theorem noDollar_ne_dollar (w : Json) (h : noDollar w = true) : w ≠ .str "$" := by
  intro heq
  subst heq
  have h' : decide (("$" : String) ≠ "$") = true := h
  exact (of_decide_eq_true h') rfl

mutual

theorem reviveJson_eq_spec (vars : Json) (hv : noDollar vars = true) :
    ∀ (t : Json), noDollar t = true →
      reviveJson vars t = resolveSpec vars t ∧
      (∀ w, reviveJson vars t = .ok w → w ≠ .str "$")
  | .null, _ =>
    ⟨rfl, fun w hw => by
      cases Except.ok.inj hw
      intro hc
      cases hc⟩
  | .bool b, _ =>
    ⟨rfl, fun w hw => by
      cases Except.ok.inj hw
      intro hc
      cases hc⟩
  | .num n, _ =>
    ⟨rfl, fun w hw => by
      cases Except.ok.inj hw
      intro hc
      cases hc⟩
  | .str s, ht => by
    by_cases hd : (s.data.head? == some '$') = true
    · have hrev : reviveJson vars (.str s) = reviveTemplate vars (.str s) := by
        show jsonReviver vars (.str s) = reviveTemplate vars (.str s)
        unfold jsonReviver
        rw [if_pos (show jsIndexZeroDollar (.str s) = true from hd)]
      have hspec : resolveSpec vars (.str s) =
          (match jsGet vars (splitDots (jsSliceStr s)) with
            | some value => Except.ok value
            | none => Except.error (.undefinedVariable (jsSliceStr s))) := by
        unfold resolveSpec
        rw [if_pos hd]
      constructor
      · rw [hrev, hspec]
        rfl
      · intro w hw
        rw [hrev] at hw
        change (match jsGet vars (splitDots (jsSliceStr s)) with
          | some value => Except.ok value
          | none => Except.error (Err.undefinedVariable (jsSliceStr s))) =
            Except.ok w at hw
        cases hg : jsGet vars (splitDots (jsSliceStr s)) with
        | none =>
          rw [hg] at hw
          cases hw
        | some value =>
          rw [hg] at hw
          have hwv : value = w := Except.ok.inj hw
          rw [← hwv]
          exact noDollar_ne_dollar value (jsGet_noDollar vars _ value hv hg)
    · have hz : jsIndexZeroDollar (.str s) = false := by
        show (s.data.head? == some '$') = false
        cases hb : (s.data.head? == some '$') with
        | false => rfl
        | true => exact absurd hb hd
      have hok : reviveJson vars (.str s) = .ok (.str s) := by
        show jsonReviver vars (.str s) = .ok (.str s)
        unfold jsonReviver
        rw [hz]
        rfl
      constructor
      · rw [hok]
        unfold resolveSpec
        rw [if_neg hd]
      · intro w hw
        cases Except.ok.inj (hok.symm.trans hw)
        intro hc
        injection hc with hs
        have h' : decide (s ≠ "$") = true := ht
        exact (of_decide_eq_true h') hs
  | .arr elems, ht => by
    obtain ⟨heq, hne⟩ := reviveJsonList_eq_spec vars hv elems ht
    have harr : ∀ elems', reviveJsonList vars elems = .ok elems' →
        jsonReviver vars (.arr elems') = .ok (.arr elems') := by
      intro elems' hl
      have hz : jsIndexZeroDollar (.arr elems') = false := by
        show (elems'.head? == some (Json.str "$")) = false
        cases hh : elems'.head? with
        | none => rfl
        | some w0 =>
          have hw0 : w0 ∈ elems' := by
            cases elems' with
            | nil => cases hh
            | cons a l =>
              cases Option.some.inj hh
              exact List.mem_cons_self _ _
          cases hb : ((some w0 : Option Json) == some (.str "$")) with
          | false => rfl
          | true => exact absurd (Option.some.inj (eq_of_beq hb)) (hne elems' hl w0 hw0)
      unfold jsonReviver
      rw [hz]
      rfl
    constructor
    · show (match reviveJsonList vars elems with
        | Except.error e => Except.error e
        | Except.ok elems' => jsonReviver vars (.arr elems')) =
        (match resolveSpecList vars elems with
        | Except.error e => Except.error e
        | Except.ok elems' => Except.ok (Json.arr elems'))
      rw [← heq]
      cases hl : reviveJsonList vars elems with
      | error e => rfl
      | ok elems' =>
        show jsonReviver vars (.arr elems') = Except.ok (.arr elems')
        exact harr elems' hl
    · intro w hw
      change (match reviveJsonList vars elems with
        | Except.error e => Except.error e
        | Except.ok elems' => jsonReviver vars (.arr elems')) = Except.ok w at hw
      cases hl : reviveJsonList vars elems with
      | error e =>
        rw [hl] at hw
        cases hw
      | ok elems' =>
        rw [hl] at hw
        change jsonReviver vars (Json.arr elems') = Except.ok w at hw
        rw [harr elems' hl] at hw
        have hwv := Except.ok.inj hw
        rw [← hwv]
        intro hc
        cases hc
  | .obj fields, ht => by
    obtain ⟨heq, hne⟩ := reviveJsonFields_eq_spec vars hv fields ht
    have hobj : ∀ fields', reviveJsonFields vars fields = .ok fields' →
        jsonReviver vars (.obj fields') = .ok (.obj fields') := by
      intro fields' hl
      have hz : jsIndexZeroDollar (.obj fields') = false := by
        show ((fields'.find? (fun f => f.fst == "0")).map (fun f => f.snd) ==
          some (Json.str "$")) = false
        cases hf : fields'.find? (fun f => f.fst == "0") with
        | none => rfl
        | some f =>
          obtain ⟨k1, v1⟩ := f
          have hmem := List.mem_of_find?_eq_some hf
          cases hb : ((some v1 : Option Json) == some (.str "$")) with
          | false => exact hb
          | true =>
            exact absurd (Option.some.inj (eq_of_beq hb)) (hne fields' hl k1 v1 hmem)
      unfold jsonReviver
      rw [hz]
      rfl
    constructor
    · show (match reviveJsonFields vars fields with
        | Except.error e => Except.error e
        | Except.ok fields' => jsonReviver vars (.obj fields')) =
        (match resolveSpecFields vars fields with
        | Except.error e => Except.error e
        | Except.ok fields' => Except.ok (Json.obj fields'))
      rw [← heq]
      cases hl : reviveJsonFields vars fields with
      | error e => rfl
      | ok fields' =>
        show jsonReviver vars (.obj fields') = Except.ok (.obj fields')
        exact hobj fields' hl
    · intro w hw
      change (match reviveJsonFields vars fields with
        | Except.error e => Except.error e
        | Except.ok fields' => jsonReviver vars (.obj fields')) = Except.ok w at hw
      cases hl : reviveJsonFields vars fields with
      | error e =>
        rw [hl] at hw
        cases hw
      | ok fields' =>
        rw [hl] at hw
        change jsonReviver vars (Json.obj fields') = Except.ok w at hw
        rw [hobj fields' hl] at hw
        have hwv := Except.ok.inj hw
        rw [← hwv]
        intro hc
        cases hc

theorem reviveJsonList_eq_spec (vars : Json) (hv : noDollar vars = true) :
    ∀ (l : List Json), noDollarList l = true →
      reviveJsonList vars l = resolveSpecList vars l ∧
      (∀ l', reviveJsonList vars l = .ok l' → ∀ w ∈ l', w ≠ .str "$")
  | [], _ =>
    ⟨rfl, fun l' hl' w hw => by
      cases Except.ok.inj hl'
      cases hw⟩
  | v :: vs, h => by
    have hpair : noDollar v = true ∧ noDollarList vs = true := by
      have h' : (noDollar v && noDollarList vs) = true := h
      rw [Bool.and_eq_true] at h'
      exact h'
    obtain ⟨h1, h2⟩ := hpair
    obtain ⟨heq1, hne1⟩ := reviveJson_eq_spec vars hv v h1
    obtain ⟨heq2, hne2⟩ := reviveJsonList_eq_spec vars hv vs h2
    constructor
    · show (match reviveJson vars v with
        | Except.error e => Except.error e
        | Except.ok v' =>
          match reviveJsonList vars vs with
          | Except.error e => Except.error e
          | Except.ok vs' => Except.ok (v' :: vs')) =
        (match resolveSpec vars v with
        | Except.error e => Except.error e
        | Except.ok v' =>
          match resolveSpecList vars vs with
          | Except.error e => Except.error e
          | Except.ok vs' => Except.ok (v' :: vs'))
      rw [← heq1, ← heq2]
    · intro l' hl' w hw
      change (match reviveJson vars v with
        | Except.error e => Except.error e
        | Except.ok v' =>
          match reviveJsonList vars vs with
          | Except.error e => Except.error e
          | Except.ok vs' => Except.ok (v' :: vs')) = Except.ok l' at hl'
      cases hr : reviveJson vars v with
      | error e =>
        rw [hr] at hl'
        cases hl'
      | ok v' =>
        rw [hr] at hl'
        cases hrl : reviveJsonList vars vs with
        | error e =>
          rw [hrl] at hl'
          cases hl'
        | ok vs' =>
          rw [hrl] at hl'
          cases Except.ok.inj hl'
          rcases List.mem_cons.mp hw with heqw | hw'
          · rw [heqw]
            exact hne1 v' hr
          · exact hne2 vs' hrl w hw'

theorem reviveJsonFields_eq_spec (vars : Json) (hv : noDollar vars = true) :
    ∀ (fs : List (String × Json)), noDollarFields fs = true →
      reviveJsonFields vars fs = resolveSpecFields vars fs ∧
      (∀ fs', reviveJsonFields vars fs = .ok fs' → ∀ k w, (k, w) ∈ fs' → w ≠ .str "$")
  | [], _ =>
    ⟨rfl, fun fs' hl' k w hw => by
      cases Except.ok.inj hl'
      cases hw⟩
  | (k0, v) :: fs, h => by
    have hpair : noDollar v = true ∧ noDollarFields fs = true := by
      have h' : (noDollar v && noDollarFields fs) = true := h
      rw [Bool.and_eq_true] at h'
      exact h'
    obtain ⟨h1, h2⟩ := hpair
    obtain ⟨heq1, hne1⟩ := reviveJson_eq_spec vars hv v h1
    obtain ⟨heq2, hne2⟩ := reviveJsonFields_eq_spec vars hv fs h2
    constructor
    · show (match reviveJson vars v with
        | Except.error e => Except.error e
        | Except.ok v' =>
          match reviveJsonFields vars fs with
          | Except.error e => Except.error e
          | Except.ok fs' => Except.ok ((k0, v') :: fs')) =
        (match resolveSpec vars v with
        | Except.error e => Except.error e
        | Except.ok v' =>
          match resolveSpecFields vars fs with
          | Except.error e => Except.error e
          | Except.ok fs' => Except.ok ((k0, v') :: fs'))
      rw [← heq1, ← heq2]
    · intro fs' hl' k w hw
      change (match reviveJson vars v with
        | Except.error e => Except.error e
        | Except.ok v' =>
          match reviveJsonFields vars fs with
          | Except.error e => Except.error e
          | Except.ok fs' => Except.ok ((k0, v') :: fs')) = Except.ok fs' at hl'
      cases hr : reviveJson vars v with
      | error e =>
        rw [hr] at hl'
        cases hl'
      | ok v' =>
        rw [hr] at hl'
        cases hrl : reviveJsonFields vars fs with
        | error e =>
          rw [hrl] at hl'
          cases hl'
        | ok fs2 =>
          rw [hrl] at hl'
          cases Except.ok.inj hl'
          rcases List.mem_cons.mp hw with heqw | hw'
          · have hwv : w = v' := congrArg Prod.snd heqw
            rw [hwv]
            exact hne1 v' hr
          · exact hne2 fs2 hrl k w hw'

end

/-- Claim C3 (amended): template resolution is a deep structural copy in
which every string whose FIRST character is the dollar sign — not only
strings of the exact placeholder form — is treated as a variable reference
(two leading and one trailing character stripped, dotted-path lookup,
fatal when the path is undefined); strings not starting with a dollar sign
and non-string values are copied unchanged.  Stated as the equivalence of
the code's bottom-up reviver traversal with a top-down recursive descent,
under the side condition that the one-character dollar string does not
occur as a value in the template or the variables (otherwise the reviver's
index-0 test can mistake a whole array or object for a reference). -/
theorem resolveVariables_eq_spec_descent (t vars : Json)
    (ht : noDollar t = true) (hv : noDollar vars = true) :
    resolveVariables t vars = resolveSpec vars t :=
  (reviveJson_eq_spec vars hv t ht).1

theorem resolveVariables_eq_spec_descent_witness :
    resolveVariables witTemplate witVars = resolveSpec witVars witTemplate ∧
    resolveVariables witTemplate witVars = .ok (.obj [("eid", .str "u9"), ("n", .num 5)]) :=
  ⟨resolveVariables_eq_spec_descent witTemplate witVars (by decide) (by decide), by decide⟩
